import Mathlib

/-!
# Verification of the Kannel WAP Push Proxy Gateway core

A shallow embedding of the PPG state engine (`gw/wap_push_ppg.c`) and the
OTA dispatch layer (`gw/wap_push_ota.c`), together with proofs about the
behaviour claimed in the specification.

Octet strings (`Octstr` in the C source) are modelled as lists of octet
values (`List Nat`, each entry an octet value < 256 in practice).
HTTP header lists are modelled as lists of name/value pairs.
-/

set_option maxRecDepth 4000

namespace KannelPush

/-- An octet string: the shallow embedding of gwlib `Octstr`. -/
abbrev Octstr := List Nat

/-- Conversion from a Lean string literal to an octet string (ASCII octets). -/
def str (s : String) : Octstr := s.data.map (fun c => c.toNat)

/-- ASCII lower-casing of one octet, as `tolower` does for ASCII input. -/
def lowerB (b : Nat) : Nat := if 65 ≤ b ∧ b ≤ 90 then b + 32 else b

/-- `octstr_get_char`: the octet at `pos`, or `-1` when `pos` is out of range. -/
def octstr_get_char (s : Octstr) (pos : Nat) : Int :=
  if h : pos < s.length then (s.get ⟨pos, h⟩ : Int) else -1

/-- `octstr_delete(ostr, pos, len)`: remove the octets at `[pos, pos+len)`,
clamped to the string. -/
def octstr_delete (s : Octstr) (pos len : Nat) : Octstr :=
  s.take pos ++ s.drop (pos + len)

/-- Does `pat` occur (case-insensitively) at offset `i` of `s`? -/
def case_matches_at (s pat : Octstr) (i : Nat) : Bool :=
  ((s.drop i).take pat.length |>.map lowerB) == pat.map lowerB

/-- Search loop of `octstr_case_search` starting at offset `i`.  The first
(fuel) argument only bounds the number of iterations; it is structural so
that searches evaluate inside the kernel.  `s.length + 1` iterations
always suffice. -/
def case_search_from (s pat : Octstr) : Nat → Nat → Option Nat
  | 0, _ => none
  | fuel + 1, i =>
    if i + pat.length ≤ s.length then
      if case_matches_at s pat i then some i
      else case_search_from s pat fuel (i + 1)
    else none

/-- `octstr_case_search(haystack, needle, 0)`: offset of the first
case-insensitive occurrence of `needle`, if any. -/
def octstr_case_search (s pat : Octstr) : Option Nat :=
  case_search_from s pat (s.length + 1) 0

/-- Case-sensitive matching at an offset, for `octstr_search`. -/
def matches_at (s pat : Octstr) (i : Nat) : Bool :=
  ((s.drop i).take pat.length) == pat

/-- Search loop of `octstr_search` starting at offset `i`, with a
structural iteration bound like `case_search_from`. -/
def search_from (s pat : Octstr) : Nat → Nat → Option Nat
  | 0, _ => none
  | fuel + 1, i =>
    if i + pat.length ≤ s.length then
      if matches_at s pat i then some i
      else search_from s pat fuel (i + 1)
    else none

/-- `octstr_search(haystack, needle, 0)`. -/
def octstr_search (s pat : Octstr) : Option Nat :=
  search_from s pat (s.length + 1) 0

/-- Decimal ASCII digits, accumulator form (the digit production loop of
`octstr_append_decimal`).  The first (fuel) argument bounds the number
of divisions by ten; `n` itself always suffices. -/
def decimalAsciiCore : Nat → Nat → Octstr → Octstr
  | 0, _, acc => acc
  | fuel + 1, n, acc =>
    if n = 0 then acc
    else decimalAsciiCore fuel (n / 10) ((48 + n % 10) :: acc)

/-- Decimal ASCII representation of a natural number, as
`octstr_append_decimal` produces for non-negative input. -/
def decimalAscii (n : Nat) : Octstr :=
  if n = 0 then [48] else decimalAsciiCore n n []

/-! ## PAP numeric codes

The numeric values of the `PAP_*` constants live in `gw/wap_push_ppg.h`,
which is not part of the sources at hand.  They are modelled from the
spec: the scenario suite fixes `1001` for acceptance, `2004` for
`PAP_FORBIDDEN` (expired), `2005` for the missing-bearer code and `2007`
for a duplicate push id.  The remaining values only need to be distinct;
no claim depends on them. -/

def PAP_OK : Nat := 1000
def PAP_ACCEPTED_FOR_PROCESSING : Nat := 1001
def PAP_BAD_REQUEST : Nat := 2000
def PAP_ADDRESS_ERROR : Nat := 2002
def PAP_CAPABILITIES_MISMATCH : Nat := 2003
def PAP_FORBIDDEN : Nat := 2004
def PAP_REQUIRED_BEARER_NOT_AVAILABLE : Nat := 2005
def PAP_DUPLICATE_PUSH_ID : Nat := 2007
def PAP_INTERNAL_SERVER_ERROR : Nat := 3002
def PAP_TRANSFORMATION_FAILURE : Nat := 3006
def PAP_SERVICE_FAILURE : Nat := 3007
def PAP_CLIENT_ABORTED : Nat := 3008

/-- WSP abort reason codes (ota 6.3.3): `USERREQ .. USERDCU` are
`0xEA .. 0xEE`. -/
def WSP_ABORT_USERREQ : Nat := 0xEA
def WSP_ABORT_USERRFS : Nat := 0xEB
def WSP_ABORT_USERPND : Nat := 0xEC
def WSP_ABORT_USERDCR : Nat := 0xED
def WSP_ABORT_USERDCU : Nat := 0xEE

/-! ## C8: `ota_abort_to_pap` (gw/wap_push_ppg.c) -/

/-- `ota_abort_to_pap`: convert an OTA abort code to the corresponding PAP
status code (`offset = reason - 0xEA; reason = 5026 + offset`). -/
def ota_abort_to_pap (reason : Int) : Int :=
  5026 + (reason - 0xEA)

/-! ## C9: `escape_fragment` (gw/wap_push_ppg.c) -/

/-- Is the octet one of the four characters deleted by `escape_fragment`
(double quote, `<`, `>`, `&`)? -/
def escape_deleted (c : Nat) : Bool :=
  c = 34 ∨ c = 60 ∨ c = 62 ∨ c = 38

/-- The index loop of `escape_fragment`: at index `i`, a listed character is
deleted in place (and the index, after the `--i; ++i` pair, stays put);
any other character is kept and the index advances. -/
def escape_fragment_loop (s : Octstr) (i : Nat) : Octstr :=
  if h : i < s.length then
    if escape_deleted s[i] then
      escape_fragment_loop (s.eraseIdx i) i
    else
      escape_fragment_loop s (i + 1)
  else s
termination_by s.length - i
decreasing_by
  · simp_wf
    rw [List.length_eraseIdx_of_lt h]
    omega
  · simp_wf
    omega

/-- `escape_fragment`: run the deletion loop from the start of the string. -/
def escape_fragment (s : Octstr) : Octstr :=
  escape_fragment_loop s 0

theorem escape_fragment_loop_eq (s : Octstr) (i : Nat) :
    escape_fragment_loop s i =
      s.take i ++ (s.drop i).filter (fun c => ! escape_deleted c) := by
  induction s, i using escape_fragment_loop.induct with
  | case1 s i h hdel ih =>
    rw [escape_fragment_loop]
    simp only [h, dif_pos, hdel, if_pos]
    rw [ih]
    have hdrop : s.drop i = s[i] :: s.drop (i + 1) :=
      List.drop_eq_getElem_cons h
    rw [List.eraseIdx_eq_take_drop_succ]
    have hlen : (s.take i).length = i := List.length_take_of_le (Nat.le_of_lt h)
    rw [List.take_append_eq_append_take, List.take_take, Nat.min_self, hlen,
      Nat.sub_self, List.take_zero, List.append_nil,
      List.drop_append_eq_append_drop, hlen, Nat.sub_self, List.drop_zero,
      List.drop_take, Nat.sub_self, List.take_zero, List.nil_append, hdrop,
      List.filter_cons]
    simp [hdel]
  | case2 s i h hdel ih =>
    rw [escape_fragment_loop]
    simp only [h, dif_pos, hdel, if_neg]
    rw [ih]
    have hdrop : s.drop i = s[i] :: s.drop (i + 1) :=
      List.drop_eq_getElem_cons h
    have htake : s.take (i + 1) = s.take i ++ [s[i]] :=
      (List.take_concat_get' s i h).symm
    rw [htake, hdrop, List.filter_cons]
    rw [Bool.not_eq_true] at hdel
    have hcond : (!escape_deleted s[i]) = true := by rw [hdel]; rfl
    rw [if_pos hcond, List.append_assoc, List.singleton_append]
    simp
  | case3 s i h =>
    rw [escape_fragment_loop, dif_neg h]
    rw [List.drop_eq_nil_of_le (Nat.le_of_not_lt h), List.filter_nil,
      List.append_nil, List.take_of_length_le (Nat.le_of_not_lt h)]

/-- C9: `escape_fragment` returns exactly the subsequence obtained by
deleting every occurrence of double-quote, `<`, `>` and `&`, preserving
all other octets and their relative order (deletion, not
entity-encoding). -/
theorem escape_fragment_deletes_exactly (s : Octstr) :
    escape_fragment s = s.filter (fun c => ! escape_deleted c) := by
  rw [escape_fragment, escape_fragment_loop_eq]
  simp

/-- C8: on `0xEA .. 0xFF`, `ota_abort_to_pap reason = 5026 + (reason - 0xEA)`
in exact integer arithmetic, and the map is strictly monotone there. -/
theorem ota_abort_to_pap_linear_monotone :
    (∀ reason : Int, 0xEA ≤ reason → reason ≤ 0xFF →
      ota_abort_to_pap reason = 5026 + (reason - 0xEA)) ∧
    (∀ r₁ r₂ : Int, 0xEA ≤ r₁ → r₂ ≤ 0xFF → r₁ < r₂ →
      ota_abort_to_pap r₁ < ota_abort_to_pap r₂) := by
  constructor
  · intro reason _ _
    rfl
  · intro r₁ r₂ _ _ hlt
    simp only [ota_abort_to_pap]
    omega

theorem ota_abort_to_pap_linear_monotone_witness :
    ota_abort_to_pap 0xEC = 5026 + (0xEC - 0xEA) ∧
    ota_abort_to_pap 0xEA < ota_abort_to_pap 0xFF :=
  ⟨ota_abort_to_pap_linear_monotone.1 0xEC (by decide) (by decide),
   ota_abort_to_pap_linear_monotone.2 0xEA 0xFF (by decide) (by decide)
     (by decide)⟩

/-! ## C2: `pack_server_address` (gw/wap_push_ota.c)

The constants `GSM_CSD_IPV4` and `CONNECTED_PORT` are defined in headers
that are not part of the sources at hand.  They are modelled from the
spec (WSP table 16 bearer-type for GSM CSD over IPv4, and the WAP
connection-oriented push port); no claim depends on their exact values. -/

def GSM_CSD_IPV4 : Nat := 10
def CONNECTED_PORT : Nat := 9201

/-- `octstr_append_char`: append one octet (an `unsigned char`). -/
def octstr_append_char (s : Octstr) (c : Nat) : Octstr := s ++ [c % 256]

/-- `octstr_set_bits(os, bitpos, 1, 1)` for a bit inside the first byte:
set to 1 the bit at `bitpos`, counting from the most significant bit of
octet 0 (gwlib numbering). -/
def octstr_set_bit1 (s : Octstr) (bitpos : Nat) : Octstr :=
  s.set (bitpos / 8) ((s.getD (bitpos / 8) 0) ||| 2 ^ (7 - bitpos % 8))

/-- `octstr_append_decimal` for a non-negative number. -/
def octstr_append_decimal (s : Octstr) (n : Nat) : Octstr :=
  s ++ decimalAscii n

/-- `pack_server_address`: pack the SIA contact point for the bearerbox IP
address.  Transcription of the source: append the address length octet,
set bits 0 and 1 of the string (i.e. the two most significant bits of
that same first octet), append the bearer-type octet, the port in
decimal ASCII, and the raw address octets. -/
def pack_server_address (ip_address : Octstr) : Octstr :=
  let address_len := ip_address.length % 256
  let address := octstr_append_char [] address_len
  let address := octstr_set_bit1 address 0
  let address := octstr_set_bit1 address 1
  let address := octstr_append_char address GSM_CSD_IPV4
  let address := octstr_append_decimal address CONNECTED_PORT
  address ++ ip_address

/-- The SIA contact-point layout asserted by the claim: a length octet,
then a separate flags octet `0x03`, then the bearer type, the decimal
port and the raw address. -/
def sia_contact_point_claimed (ip_address : Octstr) : Octstr :=
  ip_address.length :: 3 :: GSM_CSD_IPV4 ::
    (decimalAscii CONNECTED_PORT ++ ip_address)

/-- C2 counterexample: for the bearerbox address `127.0.0.1` the packed
contact point does not follow the claimed layout; its first octet is
`0xC9 = 201` (the length with the two flag bits folded in), not the
address length `9`, so re-reading the first octet as a length does not
give `len(ip_address)`. -/
theorem pack_server_address_first_octet_not_length :
    pack_server_address (str (r"127.0.0.1")) ≠
      sia_contact_point_claimed (str (r"127.0.0.1")) ∧
    (pack_server_address (str (r"127.0.0.1"))).headD 0 = 201 ∧
    (str (r"127.0.0.1")).length = 9 := by
  refine ⟨?_, by decide, by decide⟩
  decide

/-- Unfolding `pack_server_address`: the set-bit calls fold the two flag
bits into the single length octet — no separate flags octet exists. -/
theorem pack_server_address_eq (ip_address : Octstr) :
    pack_server_address ip_address =
      (ip_address.length % 256 % 256 ||| 128 ||| 64) ::
        (GSM_CSD_IPV4 % 256) ::
        (decimalAscii CONNECTED_PORT ++ ip_address) := rfl

/-- C2 amended: the packed contact point is the length octet with the two
most significant bits set (bearer-type-included and port-included flags),
then the bearer-type octet `GSM_CSD_IPV4`, then the port as decimal
ASCII, then the raw IP address octets; the address length is recovered
from the six low bits of the first octet. -/
theorem pack_server_address_layout (ip_address : Octstr)
    (hlen : ip_address.length < 64) :
    pack_server_address ip_address =
      (ip_address.length ||| 0xC0) :: GSM_CSD_IPV4 ::
        (decimalAscii CONNECTED_PORT ++ ip_address) ∧
    (pack_server_address ip_address).headD 0 % 64 = ip_address.length := by
  rw [pack_server_address_eq]
  have h256 : ip_address.length % 256 % 256 = ip_address.length := by
    omega
  rw [h256]
  have hgsm : GSM_CSD_IPV4 % 256 = GSM_CSD_IPV4 := by decide
  rw [hgsm]
  have hor : ip_address.length ||| 128 ||| 64 = ip_address.length ||| 0xC0 ∧
      (ip_address.length ||| 128 ||| 64) % 64 = ip_address.length := by
    generalize hn : ip_address.length = n
    rw [hn] at hlen
    interval_cases n <;> exact ⟨by decide, by decide⟩
  rw [hor.1]
  refine ⟨rfl, ?_⟩
  rw [List.headD_cons, ← hor.1, hor.2]

theorem pack_server_address_layout_witness :
    (str (r"127.0.0.1")).length < 64 ∧
    pack_server_address (str (r"127.0.0.1")) =
      ((str (r"127.0.0.1")).length ||| 0xC0) :: GSM_CSD_IPV4 ::
        (decimalAscii CONNECTED_PORT ++ str ("127.0.0.1")) ∧
    (pack_server_address (str (r"127.0.0.1"))).headD 0 % 64 =
      (str (r"127.0.0.1")).length := by
  have h := pack_server_address_layout (str (r"127.0.0.1")) (by decide)
  exact ⟨by decide, h.1, h.2⟩

/-! ## C10: `get_mime_boundary` (gw/wap_push_ppg.c) -/

/-- The value-collection loop of `get_mime_boundary`: at position `pos`,
read `c = octstr_get_char(content_header, pos)` (which is `-1` past the
end of the string); stop only when `c` is a semicolon, otherwise append
`c` (unless it is a space or a double quote, and converted to an octet as
`%c` does) and advance.  The structural fuel argument bounds the number
of iterations of the embedding; the C loop has no such bound. -/
def get_mime_boundary_loop (s : Octstr) : Nat → Nat → Octstr → Option Octstr
  | 0, _, _ => none
  | fuel + 1, pos, acc =>
    let c := octstr_get_char s pos
    if c = 59 then some acc
    else
      get_mime_boundary_loop s fuel (pos + 1)
        (if c ≠ 32 ∧ c ≠ 34 then acc ++ [(c % 256).toNat] else acc)

/-- `get_mime_boundary`: search `boundary=` case-insensitively, skip one
opening double quote, then run the collection loop.  Returns
`some (-1, [])` when no boundary parameter exists (the C function
returns `-1`), `some (0, b)` when the loop stops with boundary `b`, and
`none` when the loop does not stop within the given fuel. -/
def get_mime_boundary (content_header : Octstr) (fuel : Nat) :
    Option (Int × Octstr) :=
  match octstr_case_search content_header (str (r"boundary=")) with
  | none => some (-1, [])
  | some p =>
    let pos := p + (str (r"boundary=")).length
    let pos := if octstr_get_char content_header pos = 34 then pos + 1 else pos
    match get_mime_boundary_loop content_header fuel pos [] with
    | none => none
    | some b => some (0, b)

theorem get_mime_boundary_loop_no_semicolon (s : Octstr) :
    ∀ (fuel pos : Nat) (acc : Octstr),
      (∀ k, pos ≤ k → octstr_get_char s k ≠ 59) →
      get_mime_boundary_loop s fuel pos acc = none := by
  intro fuel
  induction fuel with
  | zero => intro pos acc _; rfl
  | succ fuel ih =>
    intro pos acc h
    rw [get_mime_boundary_loop]
    simp only [if_neg (h pos (Nat.le_refl pos))]
    exact ih (pos + 1) _ (fun k hk => h k (by omega))

/-- C10: on the Content-Type value `multipart/related; boundary=wow`,
where no `';'` follows the boundary parameter, the collection loop of
`get_mime_boundary` never terminates — `octstr_get_char` keeps returning
`-1` past the end of the string and the loop only stops on `';'` — so no
amount of fuel makes the embedding return, refuting termination;
the claim expects termination with result `(0, wow)`. -/
theorem get_mime_boundary_diverges_without_semicolon :
    ∀ fuel : Nat,
      get_mime_boundary (str (r"multipart/related; boundary=wow")) fuel =
        none := by
  intro fuel
  have hsearch :
      octstr_case_search (str (r"multipart/related; boundary=wow"))
        (str (r"boundary=")) = some 19 := by decide
  rw [get_mime_boundary, hsearch]
  have hq : octstr_get_char (str (r"multipart/related; boundary=wow"))
      (19 + (str (r"boundary=")).length) = 119 := by decide
  simp only [hq]
  rw [if_neg (by decide)]
  rw [get_mime_boundary_loop_no_semicolon]
  intro k hk
  have hlen9 : (str (r"boundary=")).length = 9 := by decide
  have hlen31 : (str (r"multipart/related; boundary=wow")).length = 31 := by
    decide
  rw [hlen9] at hk
  by_cases hlen : k < 31
  · have h28 : k = 28 ∨ k = 29 ∨ k = 30 := by omega
    rcases h28 with rfl | rfl | rfl <;> decide
  · rw [octstr_get_char, dif_neg]
    · decide
    · omega

/-! ## C6: `check_session_request_headers` (gw/wap_push_ota.c)

HTTP header lists are modelled as ordered lists of name/value pairs;
header names compare case-insensitively. -/

/-- A list of HTTP headers (ordered, possibly repeated names). -/
abbrev Headers := List (Octstr × Octstr)

/-- Case-insensitive header-name comparison. -/
def header_name_is (n name : Octstr) : Bool :=
  (n.map lowerB) == (name.map lowerB)

/-- `http_header_add`: append a header at the end of the list. -/
def http_header_add (hs : Headers) (name value : Octstr) : Headers :=
  hs ++ [(name, value)]

/-- Modelled from the spec: `http_type_accepted` lives in gwlib/http.c,
which is not among the sources at hand.  Following the spec (the push
headers are built "by ensuring Content-Type: application/vnd.wap.sia")
and the caller comment ("we check headers for them and add them if they
are not already present"), it reports whether the header list already
carries a `Content-Type` header with the given value. -/
def http_type_accepted (hs : Headers) (ty : Octstr) : Bool :=
  hs.any (fun h => header_name_is h.1 (str (r"Content-Type")) && h.2 == ty)

/-- `check_session_request_headers`: transcription of the source — note
the misspelt type in the test (`application/wnd.wap.sia`, a `w` instead
of a `v`) against the correctly spelt type that is added. -/
def check_session_request_headers (hs : Headers) : Headers :=
  if ¬ http_type_accepted hs (str (r"application/wnd.wap.sia")) then
    http_header_add hs (str (r"Content-Type"))
      (str (r"application/vnd.wap.sia"))
  else hs

/-- C6: on a header list that already carries
`Content-Type: application/vnd.wap.sia`, `check_session_request_headers`
adds a second such header (the presence test looks for the misspelt type
`application/wnd.wap.sia`, which never matches), so the emitted
`S_Unit_Push_Req` carries two `Content-Type` headers where the claim
says none is added. -/
theorem check_session_request_headers_adds_duplicate :
    (check_session_request_headers
        [(str (r"Content-Type"), str (r"application/vnd.wap.sia"))]).countP
      (fun h => header_name_is h.1 (str (r"Content-Type")) &&
        h.2 == str (r"application/vnd.wap.sia")) = 2 := by
  decide

/-! ## C7: `check_x_wap_application_id_header` / `parse_appid_header`
(gw/wap_push_ppg.c) -/

/-- `http_header_find_first`: value of the first header with the given
name (case-insensitive). -/
def http_header_find_first (hs : Headers) (name : Octstr) : Option Octstr :=
  (hs.find? (fun h => header_name_is h.1 name)).map (fun h => h.2)

/-- `http_header_remove_all`: drop every header with the given name. -/
def http_header_remove_all (hs : Headers) (name : Octstr) : Headers :=
  hs.filter (fun h => ! header_name_is h.1 name)

/-- The WINA-approved application id names tested by `parse_appid_header`
(table `wina_uri[]`). -/
def wina_uri : List Octstr :=
  [str (r"*"), str (r"push.sia"), str (r"wml.ua"), str (r"push.mms")]

/-- The `while (i < NUMBER_OF_WINA_URIS)` loop of `parse_appid_header`:
the offset of the first table entry that occurs (case-insensitively)
inside the value, in table order. -/
def wina_match : List Octstr → Octstr → Option Nat
  | [], _ => none
  | u :: rest, v =>
    match octstr_case_search v u with
    | some pos => some pos
    | none => wina_match rest v

/-- Modelled from the spec: `wsp_string_to_application_id` is generated
from the WSP string tables (`wap/wsp_strings.def`), which are not among
the sources at hand.  Following the spec ("looked up in the WSP
application-id numeric table and replaced with the assigned number"), it
maps the WINA-registered names, case-insensitively, to their assigned
numbers and fails on everything else. -/
def wsp_string_to_application_id (v : Octstr) : Option Nat :=
  if (v.map lowerB) == (str (r"*")).map lowerB then some 0
  else if (v.map lowerB) == (str (r"push.sia")).map lowerB then some 1
  else if (v.map lowerB) == (str (r"wml.ua")).map lowerB then some 2
  else if (v.map lowerB) == (str (r"push.mms")).map lowerB then some 4
  else none

/-- `parse_appid_header`: transcription of the source.  A value carrying
`;` is treated as the app-encoding form (cut at the separator); otherwise
the value is searched for a WINA name, trimmed to start at the first
match and looked up in the WSP numeric table; an unmatched value is
replaced by the assigned number 2 (wml.ua). -/
def parse_appid_header (v : Octstr) : Octstr :=
  match octstr_search v (str (r";")) with
  | some pos =>
    let v1 := octstr_delete v pos (str (r";app-encoding=")).length
    octstr_delete v1 0 pos
  | none =>
    match wina_match wina_uri v with
    | none => decimalAscii 2
    | some pos =>
      let v1 := octstr_delete v 0 pos
      match wsp_string_to_application_id v1 with
      | some coded_value => decimalAscii coded_value
      | none => v1

/-- `check_x_wap_application_id_header`: normalise the first
`X-WAP-Application-Id` header; the header is re-emitted only when the
resulting value differs from the default `2`. -/
def check_x_wap_application_id_header (hs : Headers) : Headers :=
  match http_header_find_first hs (str (r"X-WAP-Application-Id")) with
  | none => hs
  | some appid_content =>
    let v := parse_appid_header appid_content
    let hs1 := http_header_remove_all hs (str (r"X-WAP-Application-Id"))
    if v ≠ decimalAscii 2 then
      http_header_add hs1 (str (r"X-WAP-Application-Id")) v
    else hs1

/-- The behaviour asserted by the claim, as a function: match the value
against the WINA table; on a match, replace it by the assigned number of
the matched entry; otherwise use the default number 2; re-emit the
header only when the result differs from 2. -/
def wina_assigned : Nat → Nat
  | 0 => 0
  | 1 => 1
  | 2 => 2
  | _ => 4

/-- Index (in table order) of the first WINA entry occurring in `v`. -/
def wina_match_idx : Nat → List Octstr → Octstr → Option Nat
  | _, [], _ => none
  | i, u :: rest, v =>
    match octstr_case_search v u with
    | some _ => some i
    | none => wina_match_idx (i + 1) rest v

/-- The header rewriting claimed by the spec for a single
`X-WAP-Application-Id` header. -/
def check_x_wap_claimed (v : Octstr) : Headers :=
  let value :=
    match wina_match_idx 0 wina_uri v with
    | some i => decimalAscii (wina_assigned i)
    | none => decimalAscii 2
  if value ≠ decimalAscii 2 then
    [(str (r"X-WAP-Application-Id"), value)]
  else []

/-- C7 counterexample: for the header value `wml.uaX` (no app-encoding
field), the WINA name `wml.ua` occurs in the value, so the claim says the
value is replaced by the assigned number 2 and the header is dropped; the
code instead trims the value to `wml.uaX`, fails the numeric-table
lookup, keeps the string `wml.uaX` and re-emits the header. -/
theorem check_x_wap_application_id_header_counterexample :
    check_x_wap_application_id_header
        [(str (r"X-WAP-Application-Id"), str (r"wml.uaX"))] =
      [(str (r"X-WAP-Application-Id"), str (r"wml.uaX"))] ∧
    check_x_wap_claimed (str (r"wml.uaX")) = [] ∧
    check_x_wap_application_id_header
        [(str (r"X-WAP-Application-Id"), str (r"wml.uaX"))] ≠
      check_x_wap_claimed (str (r"wml.uaX")) := by
  refine ⟨by decide, by decide, by decide⟩

theorem search_from_single_none (v : Octstr) (c : Nat) (hc : c ∉ v) :
    ∀ (fuel i : Nat), search_from v [c] fuel i = none := by
  intro fuel
  induction fuel with
  | zero => intro i; rfl
  | succ fuel ih =>
    intro i
    rw [search_from]
    by_cases hle : i + 1 ≤ v.length
    · rw [if_pos (by simpa using hle)]
      have hm : matches_at v [c] i = false := by
        unfold matches_at
        have hi : i < v.length := by omega
        have hlen1 : ([c] : Octstr).length = 1 := rfl
        have ht : (v.drop i).take 1 = [v[i]] := by
          rw [List.drop_eq_getElem_cons hi]
          rfl
        rw [hlen1, ht]
        have hne : v[i] ≠ c := by
          intro hEq
          exact hc (hEq ▸ List.getElem_mem hi)
        simp [hne]
      rw [hm]
      simp only [Bool.false_eq_true, if_false]
      exact ih (i + 1)
    · rw [if_neg (by simpa using hle)]

/-- C7 amended: for every `X-WAP-Application-Id` header value that
contains no `;` (in particular, no app-encoding field): if no WINA name
occurs in the value the header value becomes the default number 2 and
the header is not re-emitted; if a WINA name first occurs at offset `p`,
the value is trimmed to its suffix from `p`; when that suffix is exactly
a WSP numeric-table name it is replaced by the assigned number (and the
header is dropped when that number is 2), otherwise the trimmed suffix
itself is kept (and the header is dropped when it is the string `2`). -/
theorem check_x_wap_application_id_header_amended (v : Octstr)
    (hnosemi : (59 : Nat) ∉ v) :
    (wina_match wina_uri v = none →
      check_x_wap_application_id_header
          [(str (r"X-WAP-Application-Id"), v)] = []) ∧
    (∀ p, wina_match wina_uri v = some p →
      (∀ n, wsp_string_to_application_id (v.drop p) = some n →
        check_x_wap_application_id_header
            [(str (r"X-WAP-Application-Id"), v)] =
          if decimalAscii n = decimalAscii 2 then []
          else [(str (r"X-WAP-Application-Id"), decimalAscii n)]) ∧
      (wsp_string_to_application_id (v.drop p) = none →
        check_x_wap_application_id_header
            [(str (r"X-WAP-Application-Id"), v)] =
          if v.drop p = decimalAscii 2 then []
          else [(str (r"X-WAP-Application-Id"), v.drop p)])) := by
  have hsearch : octstr_search v (str (r";")) = none := by
    have hsc : str (r";") = [59] := by decide
    rw [hsc, octstr_search]
    exact search_from_single_none v 59 hnosemi _ _
  have hfind :
      http_header_find_first [(str (r"X-WAP-Application-Id"), v)]
        (str (r"X-WAP-Application-Id")) = some v := rfl
  have hremove :
      http_header_remove_all [(str (r"X-WAP-Application-Id"), v)]
        (str (r"X-WAP-Application-Id")) = [] := rfl
  have hd : ∀ q : Nat, octstr_delete v 0 q = v.drop q := by
    intro q
    simp [octstr_delete]
  constructor
  · intro hnone
    rw [check_x_wap_application_id_header, hfind]
    simp only [parse_appid_header, hsearch, hnone, hremove]
    simp [http_header_add]
  · intro p hp
    refine ⟨?_, ?_⟩
    · intro n hn
      rw [check_x_wap_application_id_header, hfind]
      simp only [parse_appid_header, hsearch, hp, hremove, hd, hn]
      by_cases h2 : decimalAscii n = decimalAscii 2 <;>
        simp [http_header_add, h2]
    · intro hn
      rw [check_x_wap_application_id_header, hfind]
      simp only [parse_appid_header, hsearch, hp, hremove, hd, hn]
      by_cases h2 : v.drop p = decimalAscii 2 <;>
        simp [http_header_add, h2]

theorem check_x_wap_application_id_header_amended_witness :
    ((59 : Nat) ∉ str (r"push.sia")) ∧
    check_x_wap_application_id_header
        [(str (r"X-WAP-Application-Id"), str (r"push.sia"))] =
      [(str (r"X-WAP-Application-Id"), decimalAscii 1)] := by
  have h := check_x_wap_application_id_header_amended (str (r"push.sia"))
    (by decide)
  have h2 := (h.2 0 (by decide)).1 1 (by decide)
  exact ⟨by decide, by rw [h2]; decide⟩

/-! ## The PPG state engine (gw/wap_push_ppg.c)

Further numeric constants from the missing header `wap_push_ppg.h`,
modelled from the spec: the delivery methods, the message states and the
attribute-update status selectors.  All that matters for the claims is
that they are pairwise distinct; a fresh machine is zero-initialised, so
`0` is reserved for "unset". -/

def PAP_UNCONFIRMED : Nat := 11
def PAP_CONFIRMED : Nat := 12
def PAP_PREFERCONFIRMED : Nat := 13
def PAP_NOT_SPECIFIED : Nat := 14

def PAP_PENDING : Nat := 21
def PAP_DELIVERED : Nat := 22
def PAP_UNDELIVERABLE : Nat := 23
def PAP_EXPIRED : Nat := 24
def PAP_ABORTED : Nat := 25

def PAP_UNDELIVERABLE1 : Nat := 31
def PAP_UNDELIVERABLE2 : Nat := 32
def PAP_DELIVERED1 : Nat := 33
def PAP_DELIVERED2 : Nat := 34

/-- A broken-down UTC time as produced by `gw_gmtime` and already shifted
to calendar form (`tm_year + 1900`, `tm_mon + 1`, and so on, exactly the
values `initialize_time_item_array` computes). -/
structure BrokenTime where
  year : Nat
  month : Nat
  day : Nat
  hour : Nat
  minute : Nat
  sec : Nat
  deriving DecidableEq, Repr

/-- `%02d` of `octstr_format` for the in-range field values produced by
`gw_gmtime` (all below 100). -/
def pad2 (n : Nat) : Octstr := [48 + n / 10 % 10, 48 + n % 10]

/-- `%04d` of `octstr_format` for years below 10000. -/
def pad4 (n : Nat) : Octstr :=
  [48 + n / 1000 % 10, 48 + n / 100 % 10, 48 + n / 10 % 10, 48 + n % 10]

/-- `set_time`: the current UTC time in PAP ISO-8601 form
`YYYY-MM-DDThh:mm:ssZ` (45 is `-`, 84 is `T`, 58 is `:`, 90 is `Z`). -/
def set_time (now : BrokenTime) : Octstr :=
  pad4 now.year ++ [45] ++ pad2 now.month ++ [45] ++ pad2 now.day ++
    [84] ++ pad2 now.hour ++ [58] ++ pad2 now.minute ++ [58] ++
    pad2 now.sec ++ [90]

/-- `describe_code`: the verbose description table `pap_desc[]`. -/
def describe_code (code : Int) : Octstr :=
  if code = PAP_OK then str (r"The request succeeded")
  else if code = PAP_ACCEPTED_FOR_PROCESSING then
    str (r"The request has been accepted for processing")
  else if code = PAP_BAD_REQUEST then
    str (r"Not understood due to malformed syntax")
  else if code = PAP_FORBIDDEN then str (r"Request was refused")
  else if code = PAP_ADDRESS_ERROR then
    str (r"The client specified not recognised")
  else if code = PAP_CAPABILITIES_MISMATCH then
    str (r"Capabilities assumed by PI were not  acceptable for the client specified")
  else if code = PAP_DUPLICATE_PUSH_ID then
    str (r"Push id supplied was not unique")
  else if code = PAP_INTERNAL_SERVER_ERROR then
    str (r"Server could not fulfill the request due to an internal error")
  else if code = PAP_TRANSFORMATION_FAILURE then
    str (r"PPG was unable to perform a transformation of the message")
  else if code = PAP_REQUIRED_BEARER_NOT_AVAILABLE then
    str (r"Required bearer not available")
  else if code = PAP_SERVICE_FAILURE then
    str (r"The service failed. The client may re-attempt the operation")
  else if code = PAP_CLIENT_ABORTED then
    str (r"The client aborted the operation. No reason given")
  else if code = WSP_ABORT_USERREQ then str (r"Wsp requested abort")
  else if code = WSP_ABORT_USERRFS then
    str (r"Wsp refused push message. Do not try again")
  else if code = WSP_ABORT_USERPND then
    str (r"Push message cannot be delivered to intended destination by the wsp")
  else if code = WSP_ABORT_USERDCR then
    str (r"Push message discarded due to resource shortage in wsp")
  else if code = WSP_ABORT_USERDCU then
    str (r"Content type of the push message cannot be processed by the wsp")
  else str (r"unknown PAP code")

/-- The PAP-attribute-bearing part of a push machine (`PPGPushMachine`).
Integer fields are zero-initialised on creation, octet-string fields
start as NULL (`none`). -/
structure PushMachine where
  pi_push_id : Octstr
  push_id : Nat
  session_id : Nat
  delivery_method : Nat
  deliver_after_timestamp : Option Octstr
  message_state : Nat
  code : Int
  desc : Option Octstr
  event_time : Option Octstr
  network_required : Bool
  network : Octstr
  bearer_required : Bool
  bearer : Octstr
  deriving DecidableEq, Repr

/-- The field updates of `update_push_data_with_attribute` (its `switch`
statement, in source order); the registry manipulation is modelled
separately.  An unknown status only logs an error and changes nothing. -/
def update_push_attr (qm : PushMachine) (reason : Int) (status : Nat)
    (now : BrokenTime) : PushMachine :=
  if status = PAP_UNDELIVERABLE1 then
    { qm with message_state := PAP_UNDELIVERABLE, code := PAP_BAD_REQUEST }
  else if status = PAP_UNDELIVERABLE2 then
    { qm with code := reason, message_state := PAP_UNDELIVERABLE,
              desc := some (describe_code reason) }
  else if status = PAP_ABORTED then
    { qm with message_state := status, code := ota_abort_to_pap reason,
              event_time := some (set_time now),
              desc := some (describe_code reason) }
  else if status = PAP_DELIVERED1 then
    { qm with message_state := PAP_DELIVERED,
              delivery_method := PAP_UNCONFIRMED,
              event_time := some (set_time now) }
  else if status = PAP_DELIVERED2 then
    { qm with message_state := PAP_DELIVERED,
              delivery_method := PAP_CONFIRMED,
              event_time := some (set_time now) }
  else if status = PAP_EXPIRED then
    { qm with message_state := PAP_EXPIRED,
              event_time := some (set_time now),
              desc := some (describe_code reason) }
  else if status = PAP_PENDING then
    { qm with message_state := PAP_PENDING }
  else qm

/-- A session machine (`PPGSessionMachine`).  `smid` models the identity
of the heap object (its pointer); `session_id` is `0` until WSP binds
the session. -/
structure SessionMachine where
  smid : Nat
  session_id : Nat
  pi_client_address : Octstr
  push_machines : List PushMachine
  deriving DecidableEq, Repr

/-- The mutable state of the PPG engine that the intake path touches:
the session-machine heap (pointer ↦ machine), the `ppg_machines`
registry (a list of pointers, possibly with repeats, exactly as the C
list holds repeated pointers), the connectionless `ppg_unit_pushes`
list, the key set of the `http_clients` dictionary, and the two
allocation counters. -/
structure PPGState where
  sessions : List (Nat × SessionMachine)
  ppg_machines : List Nat
  ppg_unit_pushes : List PushMachine
  http_clients : List Octstr
  push_id_counter : Nat
  smid_counter : Nat
  deriving DecidableEq, Repr

def initial_state : PPGState :=
  { sessions := [], ppg_machines := [], ppg_unit_pushes := [],
    http_clients := [], push_id_counter := 0, smid_counter := 0 }

def heap_get (st : PPGState) (sid : Nat) : Option SessionMachine :=
  (st.sessions.find? (fun kv => kv.1 = sid)).map (fun kv => kv.2)

def heap_set (st : PPGState) (sid : Nat) (m : SessionMachine) : PPGState :=
  { st with sessions :=
      st.sessions.map (fun kv => if kv.1 = sid then (sid, m) else kv) }

def heap_remove (st : PPGState) (sid : Nat) : PPGState :=
  { st with sessions := st.sessions.filter (fun kv => kv.1 ≠ sid) }

/-- Apply `f` to the push list of the session machine at `sid` (no-op when
the pointer dangles, which never happens on reachable states). -/
def modify_session (st : PPGState) (sid : Nat)
    (f : List PushMachine → List PushMachine) : PPGState :=
  match heap_get st sid with
  | some m => heap_set st sid { m with push_machines := f m.push_machines }
  | none => st

/-- `session_find_using_pi_client_address`: `list_search` over the
`ppg_machines` registry for a session machine with this PI client
address. -/
def session_find (st : PPGState) (caddr : Octstr) : Option Nat :=
  st.ppg_machines.find? (fun sid =>
    match heap_get st sid with
    | some m => m.pi_client_address == caddr
    | none => false)

/-- A well-formed `Push_Message` event, with the fields the intake path
reads.  `transformable` is the outcome of `transform_message` for this
event: the content compilers it calls (`wml_compile`, `si_compile`) are
external collaborators, so the transformation verdict enters the model
as an event attribute over which the theorems quantify.  The header
rewriting done during transformation affects no claim settled here.
A well-formed event has push headers, so the address tuple built by
`transform_message` is always non-NULL. -/
structure PushMessage where
  pi_push_id : Octstr
  address_value : Octstr
  delivery_method : Nat
  deliver_before_timestamp : Option Octstr
  deliver_after_timestamp : Option Octstr
  network_required : Bool
  network : Octstr
  bearer_required : Bool
  bearer : Octstr
  transformable : Bool
  deriving DecidableEq, Repr

/-- `cless_accepted`: connectionless delivery is used when the PI asked
for unconfirmed (or unspecified) delivery and no session machine
exists. -/
def cless_accepted (e : PushMessage) (sm : Option Nat) : Bool :=
  (e.delivery_method = PAP_UNCONFIRMED ∨
   e.delivery_method = PAP_NOT_SPECIFIED) ∧ sm = none

/-- `confirmation_requested`. -/
def confirmation_requested (e : PushMessage) : Bool :=
  e.delivery_method = PAP_CONFIRMED ∨
  e.delivery_method = PAP_PREFERCONFIRMED

/-- The fixed bearer table `bearers[]` (wdp, Appendix C). -/
def bearers : List Octstr :=
  [str (r"Any"), str (r"SMS"), str (r"CSD"), str (r"GPRS"),
   str (r"Packet Data"), str (r"CDPD")]

/-- The fixed network table `networks[]`. -/
def networks : List Octstr :=
  [str (r"Any"), str (r"GSM"), str (r"IS-95 CDMA"), str (r"ANSI-136"),
   str (r"AMPS"), str (r"PDC"), str (r"IDEN"), str (r"PHS"),
   str (r"TETRA")]

/-- `select_bearer_network`: transcription of the source.  When both a
bearer and a network are required, the source runs two search loops —
and **both** compare the `bearer` string against the `bearers[]` table
(the first loop iterates `i` up to `NUMBER_OF_NETWORKS` but still reads
`bearers[i]`, an out-of-bounds read past index 5 which is modelled as
never matching); the `network` string is read into a local but never
compared.  On success, a non-SMS bearer clears the bearer/network
fields of the event; that assignment is unobservable in this model
because the push machine copied the fields beforehand and no later
reader uses the event copies. -/
def select_bearer_network (e : PushMessage) : Bool :=
  if ¬ (e.bearer_required ∧ e.network_required) then true
  else
    let first_loop_hit := bearers.contains e.bearer
    let second_loop_hit := bearers.contains e.bearer
    first_loop_hit && second_loop_hit

/-- `octstr_parse_long` (strtol semantics, base 10): skip ASCII
whitespace, accept an optional sign, then require at least one digit. -/
def isDigitB (b : Nat) : Bool := 48 ≤ b ∧ b ≤ 57

def isSpaceB (b : Nat) : Bool := b = 32 ∨ (9 ≤ b ∧ b ≤ 13)

/-- Value of the leading digit run. -/
def digits_val : Octstr → Nat → Nat
  | [], acc => acc
  | c :: r, acc =>
    if isDigitB c then digits_val r (10 * acc + (c - 48)) else acc

def octstr_parse_long (s : Octstr) (pos : Nat) : Option Int :=
  match (s.drop pos).dropWhile isSpaceB with
  | [] => none
  | c :: r =>
    if c = 45 then
      match r with
      | d :: _ => if isDigitB d then some (-(digits_val r 0 : Int)) else none
      | [] => none
    else if c = 43 then
      match r with
      | d :: _ => if isDigitB d then some (digits_val r 0 : Int) else none
      | [] => none
    else if isDigitB c then some (digits_val (c :: r) 0 : Int)
    else none

/-- `date_item_compare`: `0` when the field does not parse or equals the
current value, `-1`/`1` for smaller/greater. -/
def date_item_compare (before : Octstr) (time_data : Int) (pos : Nat) :
    Int :=
  match octstr_parse_long before pos with
  | none => 0
  | some data =>
    if data < time_data then -1 else if data > time_data then 1 else 0

/-- `initialize_time_item_array`. -/
def time_items (now : BrokenTime) : List Int :=
  [now.year, now.month, now.day, now.hour, now.minute, now.sec]

/-- The `for (j = 5; j < octstr_len(before); j += 3)` loop of
`deliver_before_test_cleared`; structural fuel bounds iterations
(`before.length + 1` always suffices). -/
def deliver_before_loop (before : Octstr) (td : List Int) :
    Nat → Nat → Bool
  | 0, _ => false
  | fuel + 1, j =>
    if j < before.length then
      if date_item_compare before (td.getD ((j - 5) / 3 + 1) 0) j = 1 then
        true
      else if
          date_item_compare before (td.getD ((j - 5) / 3 + 1) 0) j = -1 then
        false
      else deliver_before_loop before td fuel (j + 3)
    else false

/-- `deliver_before_test_cleared`: true when the deadline is strictly in
the future (or no deadline was given); timestamps equal to now are not
accepted. -/
def deliver_before_test_cleared (before : Option Octstr)
    (now : BrokenTime) : Bool :=
  match before with
  | none => true
  | some b =>
    let td := time_items now
    if date_item_compare b (td.getD 0 0) 0 = 1 then true
    else if date_item_compare b (td.getD 0 0) 0 = -1 then false
    else deliver_before_loop b td (b.length + 1) 5

/-- The corresponding loop of `deliver_after_test_cleared` (comparison
directions reversed). -/
def deliver_after_loop (after : Octstr) (td : List Int) :
    Nat → Nat → Bool
  | 0, _ => false
  | fuel + 1, j =>
    if j < after.length then
      if date_item_compare after (td.getD ((j - 5) / 3 + 1) 0) j = -1 then
        true
      else if
          date_item_compare after (td.getD ((j - 5) / 3 + 1) 0) j = 1 then
        false
      else deliver_after_loop after td fuel (j + 3)
    else false

/-- `deliver_after_test_cleared`: true when the earliest-delivery bound is
strictly in the past (or no bound was given). -/
def deliver_after_test_cleared (after : Option Octstr)
    (now : BrokenTime) : Bool :=
  match after with
  | none => true
  | some a =>
    let td := time_items now
    if date_item_compare a (td.getD 0 0) 0 = -1 then true
    else if date_item_compare a (td.getD 0 0) 0 = 1 then false
    else deliver_after_loop a td (a.length + 1) 5

/-- The three outcomes of `delivery_time_constraints` (`0`, `1`, `2` in
the source). -/
inductive TimeConstraint
  | expired
  | tooEarly
  | noConstraints
  deriving DecidableEq, Repr

/-- `delivery_time_constraints`: the deadline test runs first. -/
def delivery_time_constraints (before after : Option Octstr)
    (now : BrokenTime) : TimeConstraint :=
  if ¬ deliver_before_test_cleared before now then .expired
  else if ¬ deliver_after_test_cleared after now then .tooEarly
  else .noConstraints

/-- `push_machine_create`: a fresh, zero-initialised machine filled from
the event; `push_id` comes from the global counter. -/
def push_machine_create (e : PushMessage) (pid : Nat) : PushMachine :=
  { pi_push_id := e.pi_push_id
    push_id := pid
    session_id := 0
    delivery_method := e.delivery_method
    deliver_after_timestamp := e.deliver_after_timestamp
    message_state := 0
    code := 0
    desc := none
    event_time := none
    network_required := e.network_required
    network := e.network
    bearer_required := e.bearer_required
    bearer := e.bearer }

/-- `find_ppg_push_machine_using_pi_push_id` /
`find_unit_ppg_push_machine_using_pi_push_id`: first machine in the list
with this PI push id. -/
def find_pi (l : List PushMachine) (pi : Octstr) : Option PushMachine :=
  l.find? (fun pm => pm.pi_push_id == pi)

/-- `session_machine_create` (also appends the new machine to
`ppg_machines`). -/
def session_machine_create (st : PPGState) (e : PushMessage) :
    PPGState × Nat :=
  let sid := st.smid_counter
  let m : SessionMachine :=
    { smid := sid, session_id := 0,
      pi_client_address := e.address_value, push_machines := [] }
  ({ st with
      sessions := st.sessions ++ [(sid, m)]
      ppg_machines := st.ppg_machines ++ [sid]
      smid_counter := sid + 1 }, sid)

/-- `store_push_data`: test the appropriate list for a duplicate
`pi_push_id`, create the machine, and append it to that list in any
case; when storing into a session the session pointer is also appended
to `ppg_machines` again.  Returns the updated state, the new machine and
the negated duplicate flag. -/
def store_push_data (st : PPGState) (smid? : Option Nat) (e : PushMessage)
    (cless : Bool) : PPGState × PushMachine × Bool :=
  let pi := e.pi_push_id
  let dup : Bool :=
    if cless then (find_pi st.ppg_unit_pushes pi).isSome
    else
      match smid? with
      | some sid =>
        match heap_get st sid with
        | some m => (find_pi m.push_machines pi).isSome
        | none => false
      | none => false
  let pm := push_machine_create e st.push_id_counter
  let st' :=
    if cless then
      { st with ppg_unit_pushes := st.ppg_unit_pushes ++ [pm]
                push_id_counter := st.push_id_counter + 1 }
    else
      match smid? with
      | some sid =>
        let st1 := modify_session st sid (fun l => l ++ [pm])
        { st1 with ppg_machines := st1.ppg_machines ++ [sid]
                   push_id_counter := st1.push_id_counter + 1 }
      | none => st
  (st', pm, !dup)

/-- The registry half of `update_push_data_with_attribute`: replace the
machine (identified by its `push_id`, the model of pointer equality) in
its list, and re-append the session pointer to `ppg_machines`. -/
def update_push_data_with_attribute (st : PPGState) (smid? : Option Nat)
    (qm : PushMachine) (reason : Int) (status : Nat) (now : BrokenTime) :
    PPGState × PushMachine :=
  let qm' := update_push_attr qm reason status now
  match smid? with
  | some sid =>
    let st1 := modify_session st sid
      (fun l => (l.filter (fun x => x.push_id ≠ qm'.push_id)) ++ [qm'])
    ({ st1 with ppg_machines :=
        (st1.ppg_machines.filter (fun x => x ≠ sid)) ++ [sid] }, qm')
  | none =>
    ({ st with ppg_unit_pushes :=
        (st.ppg_unit_pushes.filter (fun x => x.push_id ≠ qm'.push_id)) ++
          [qm'] }, qm')

/-- `remove_push_data`: delete the machine from the connectionless list or
from its session's list and destroy it. -/
def remove_push_data (st : PPGState) (smid? : Option Nat)
    (pm : PushMachine) (cless : Bool) : PPGState :=
  if cless then
    { st with ppg_unit_pushes :=
        st.ppg_unit_pushes.filter (fun x => x.push_id ≠ pm.push_id) }
  else
    match smid? with
    | some sid =>
      modify_session st sid
        (fun l => l.filter (fun x => x.push_id ≠ pm.push_id))
    | none => st

/-- `remove_pushless_session`: drop the session machine (from the
registry and the heap) when its push list is empty. -/
def remove_pushless_session (st : PPGState) (sid : Nat) : PPGState :=
  match heap_get st sid with
  | some m =>
    if m.push_machines.isEmpty then
      heap_remove
        { st with ppg_machines := st.ppg_machines.filter (fun x => x ≠ sid) }
        sid
    else st
  | none => st

/-- `update_session_data_with_headers`: re-insert the machine into its
session's push list (delete by `push_id`, then append). -/
def update_session_data_with_headers (st : PPGState) (sid : Nat)
    (pm : PushMachine) : PPGState :=
  modify_session st sid
    (fun l => (l.filter (fun x => x.push_id ≠ pm.push_id)) ++ [pm])

/-- `response_push_message` (through `send_push_response`): emit one PI
response carrying this machine's `pi_push_id` and the given code, and
remove the id from the `http_clients` dictionary. -/
def response_push_message (st : PPGState) (pm : PushMachine) (code : Nat) :
    PPGState × (Octstr × Nat) :=
  ({ st with http_clients :=
      st.http_clients.filter (fun k => k ≠ pm.pi_push_id) },
   (pm.pi_push_id, code))

/-- Events dispatched to the OTA layer by the intake path. -/
inductive OtaEvent
  | unitPushReq (push_id : Nat)
  | pushReq (push_id : Nat)
  | confirmedPushReq (push_id : Nat)
  | sessionRequestReq (push_id : Nat)
  deriving DecidableEq, Repr

/-- The observable outcome of one intake step: the new engine state, the
PI responses emitted (pi_push_id, PAP code), the OTA events dispatched,
the `update_push_data_with_attribute` calls made (reason, status), and
the return value of `handle_push_message`. -/
structure HandleResult where
  st : PPGState
  responses : List (Octstr × Nat)
  ota : List OtaEvent
  attr_updates : List (Int × Nat)
  ok : Bool
  deriving DecidableEq, Repr

/-- `handle_push_message`: the intake contract of ppg Chapter 6, exactly
as the source orders it — duplicate test, transformability test, PENDING
attribute, bearer selection, delivery-time constraints, acceptance
response, then dispatch (the `TOO_EARLY` case keeps the machine and does
nothing further). -/
def handle_push_message (st0 : PPGState) (e : PushMessage)
    (now : BrokenTime) : HandleResult :=
  let sm0 := session_find st0 e.address_value
  let cless := cless_accepted e sm0
  let message_transformable := e.transformable
  let alloc :
      PPGState × Option Nat × Bool :=
    match sm0 with
    | some sid => (st0, some sid, true)
    | none =>
      if cless then (st0, none, false)
      else
        let created := session_machine_create st0 e
        (created.1, some created.2, false)
  let st1 := alloc.1
  let smid? := alloc.2.1
  let session_exists := alloc.2.2
  let stored := store_push_data st1 smid? e cless
  let st2 := stored.1
  let pm := stored.2.1
  let ok := stored.2.2
  if ¬ ok then
    let r := response_push_message st2 pm PAP_DUPLICATE_PUSH_ID
    let st4 := remove_push_data r.1 smid? pm cless
    let st5 :=
      match smid? with
      | some sid => remove_pushless_session st4 sid
      | none => st4
    { st := st5, responses := [r.2], ota := [], attr_updates := [],
      ok := true }
  else if ¬ message_transformable then
    let u := update_push_data_with_attribute st2 smid? pm
      PAP_TRANSFORMATION_FAILURE PAP_UNDELIVERABLE1 now
    let r := response_push_message u.1 u.2 PAP_TRANSFORMATION_FAILURE
    let st4 := remove_push_data r.1 smid? u.2 cless
    let st5 :=
      match smid? with
      | some sid => remove_pushless_session st4 sid
      | none => st4
    { st := st5, responses := [r.2], ota := [],
      attr_updates := [(PAP_TRANSFORMATION_FAILURE, PAP_UNDELIVERABLE1)],
      ok := false }
  else
    let u1 := update_push_data_with_attribute st2 smid? pm 0 PAP_PENDING now
    let st3 := u1.1
    let pm2 := u1.2
    if ¬ select_bearer_network e then
      let u2 := update_push_data_with_attribute st3 smid? pm2 0
        PAP_UNDELIVERABLE2 now
      let r := response_push_message u2.1 u2.2
        PAP_REQUIRED_BEARER_NOT_AVAILABLE
      let st4 := remove_push_data r.1 smid? u2.2 cless
      let st5 :=
        match smid? with
        | some sid => remove_pushless_session st4 sid
        | none => st4
      { st := st5, responses := [r.2], ota := [],
        attr_updates := [(0, PAP_PENDING), (0, PAP_UNDELIVERABLE2)],
        ok := true }
    else
      match delivery_time_constraints e.deliver_before_timestamp
          pm2.deliver_after_timestamp now with
      | .expired =>
        let u2 := update_push_data_with_attribute st3 smid? pm2
          PAP_FORBIDDEN PAP_EXPIRED now
        let r := response_push_message u2.1 u2.2 PAP_FORBIDDEN
        let st4 := remove_push_data r.1 smid? u2.2 cless
        let st5 :=
          match smid? with
          | some sid => remove_pushless_session st4 sid
          | none => st4
        { st := st5, responses := [r.2], ota := [],
          attr_updates := [(0, PAP_PENDING),
            ((PAP_FORBIDDEN : Nat), PAP_EXPIRED)],
          ok := true }
      | .tooEarly =>
        let r := response_push_message st3 pm2 PAP_ACCEPTED_FOR_PROCESSING
        { st := r.1, responses := [r.2], ota := [],
          attr_updates := [(0, PAP_PENDING)], ok := true }
      | .noConstraints =>
        let r := response_push_message st3 pm2 PAP_ACCEPTED_FOR_PROCESSING
        let st4 :=
          match smid? with
          | some sid => update_session_data_with_headers r.1 sid pm2
          | none => r.1
        if ¬ confirmation_requested e then
          let otaEv :=
            if session_exists then OtaEvent.pushReq pm2.push_id
            else OtaEvent.unitPushReq pm2.push_id
          let u2 := update_push_data_with_attribute st4 smid? pm2
            PAP_UNCONFIRMED PAP_DELIVERED1 now
          let st5 := remove_push_data u2.1 smid? u2.2 cless
          { st := st5, responses := [r.2], ota := [otaEv],
            attr_updates := [(0, PAP_PENDING),
              ((PAP_UNCONFIRMED : Nat), PAP_DELIVERED1)],
            ok := true }
        else if session_exists then
          { st := st4, responses := [r.2],
            ota := [OtaEvent.confirmedPushReq pm2.push_id],
            attr_updates := [(0, PAP_PENDING)], ok := true }
        else
          { st := st4, responses := [r.2],
            ota := [OtaEvent.sessionRequestReq pm2.push_id],
            attr_updates := [(0, PAP_PENDING)], ok := true }

/-- The intake tail of `http_read_thread`: `dict_put_once` on the
`http_clients` dictionary rejects a pi_push_id still in flight with
`tell_duplicate_push_id`; otherwise the key is stored and the event goes
to `handle_push_message`. -/
def http_read_thread_step (st : PPGState) (e : PushMessage)
    (now : BrokenTime) : HandleResult :=
  if st.http_clients.contains e.pi_push_id then
    { st := st, responses := [(e.pi_push_id, PAP_DUPLICATE_PUSH_ID)],
      ota := [], attr_updates := [], ok := true }
  else
    handle_push_message
      { st with http_clients := st.http_clients ++ [e.pi_push_id] } e now

/-- A whole intake run: fold the step over a sequence of well-formed
`PushMessage` events, each paired with the UTC time at which it is
processed. -/
def run_intake (evs : List (PushMessage × BrokenTime)) : PPGState :=
  evs.foldl (fun st ev => (http_read_thread_step st ev.1 ev.2).st)
    initial_state

/-- All live push machines: the union of the session machines' push lists
and the connectionless list. -/
def live_pushes (st : PPGState) : List PushMachine :=
  (st.sessions.map (fun kv => kv.2.push_machines)).flatten ++
    st.ppg_unit_pushes

/-- No two distinct machines of the list share a `pi_push_id`. -/
def pi_unique (l : List PushMachine) : Prop :=
  (l.map (fun pm => pm.pi_push_id)).Nodup

/-! ## C4: the PAP-attribute transition table -/

/-- C4: for each status in the section 4.3 table,
`update_push_data_with_attribute` applies exactly the listed field
updates to the push machine and leaves every other PAP-attribute field
(`message_state`, `code`, `desc`, `event_time`, `delivery_method`)
unchanged; the record-update form of each equation is both the effect
and the frame condition. -/
theorem update_push_attr_table (qm : PushMachine) (reason : Int)
    (now : BrokenTime) :
    update_push_attr qm reason PAP_PENDING now =
      { qm with message_state := PAP_PENDING } ∧
    update_push_attr qm reason PAP_UNDELIVERABLE1 now =
      { qm with message_state := PAP_UNDELIVERABLE,
                code := PAP_BAD_REQUEST } ∧
    update_push_attr qm reason PAP_UNDELIVERABLE2 now =
      { qm with message_state := PAP_UNDELIVERABLE, code := reason,
                desc := some (describe_code reason) } ∧
    update_push_attr qm reason PAP_DELIVERED1 now =
      { qm with message_state := PAP_DELIVERED,
                delivery_method := PAP_UNCONFIRMED,
                event_time := some (set_time now) } ∧
    update_push_attr qm reason PAP_DELIVERED2 now =
      { qm with message_state := PAP_DELIVERED,
                delivery_method := PAP_CONFIRMED,
                event_time := some (set_time now) } ∧
    update_push_attr qm reason PAP_ABORTED now =
      { qm with message_state := PAP_ABORTED,
                code := ota_abort_to_pap reason,
                event_time := some (set_time now),
                desc := some (describe_code reason) } ∧
    update_push_attr qm reason PAP_EXPIRED now =
      { qm with message_state := PAP_EXPIRED,
                event_time := some (set_time now),
                desc := some (describe_code reason) } :=
  ⟨rfl, rfl, rfl, rfl, rfl, rfl, rfl⟩

/-! ## C3: bearer/network selection -/

/-- A test time used by the concrete engine runs. -/
def now_test : BrokenTime := ⟨2020, 6, 15, 12, 0, 0⟩

/-- A push requiring the unknown network `Bluetooth` over the supported
bearer `SMS`. -/
def e_network_bluetooth : PushMessage :=
  { pi_push_id := str (r"p3"), address_value := str (r"A"),
    delivery_method := PAP_CONFIRMED, deliver_before_timestamp := none,
    deliver_after_timestamp := none, network_required := true,
    network := str (r"Bluetooth"), bearer_required := true,
    bearer := str (r"SMS"), transformable := true }

/-- A push requiring the supported network `GSM` over the unknown bearer
`Bluetooth`. -/
def e_bearer_bluetooth : PushMessage :=
  { e_network_bluetooth with network := str (r"GSM"),
                             bearer := str (r"Bluetooth") }

/-- C3: the requested network name is never compared against the network
table.  `Bluetooth` is not in the network table, yet a push requiring
network `Bluetooth` over bearer `SMS` passes `select_bearer_network`
and is accepted for processing (code 1001), where the claim demands
rejection with `PAP_REQUIRED_BEARER_NOT_AVAILABLE`; both search loops
of the function compare the bearer string against the bearer table (the
first even reads `bearers[i]` with the network table's bound).  For an
unknown *bearer* name the rejection does happen as claimed. -/
theorem select_bearer_network_ignores_network :
    networks.contains (str (r"Bluetooth")) = false ∧
    select_bearer_network e_network_bluetooth = true ∧
    (http_read_thread_step initial_state e_network_bluetooth
        now_test).responses =
      [(str (r"p3"), PAP_ACCEPTED_FOR_PROCESSING)] ∧
    select_bearer_network e_bearer_bluetooth = false ∧
    (http_read_thread_step initial_state e_bearer_bluetooth
        now_test).responses =
      [(str (r"p3"), PAP_REQUIRED_BEARER_NOT_AVAILABLE)] ∧
    live_pushes (http_read_thread_step initial_state e_bearer_bluetooth
        now_test).st = [] := by
  refine ⟨by decide, by decide, by decide, by decide, by decide, by decide⟩

/-! ## C5: expiry of `deliver_before_timestamp`

First the arithmetic of `octstr_parse_long` on the PAP timestamp form
produced/parsed field by field at offsets `0, 5, 8, 11, 14, 17`. -/

theorem digits_val_digit (x : Nat) (hx : x ≤ 9) (l : Octstr) (acc : Nat) :
    digits_val ((48 + x) :: l) acc = digits_val l (10 * acc + x) := by
  have hd : isDigitB (48 + x) = true := by
    simp only [isDigitB, decide_eq_true_eq]
    omega
  simp [digits_val, hd]

theorem digits_val_stop (c : Nat) (hc : isDigitB c = false) (l : Octstr)
    (acc : Nat) : digits_val (c :: l) acc = acc := by
  simp [digits_val, hc]

theorem isDigitB_45 : isDigitB 45 = false := by decide
theorem isDigitB_58 : isDigitB 58 = false := by decide
theorem isDigitB_84 : isDigitB 84 = false := by decide
theorem isDigitB_90 : isDigitB 90 = false := by decide

theorem dropWhile_space_digit (c : Nat) (hc : 48 ≤ c) (l : Octstr) :
    (c :: l).dropWhile isSpaceB = c :: l := by
  have hs : isSpaceB c = false := by
    simp only [isSpaceB, decide_eq_false_iff_not]
    omega
  simp [List.dropWhile_cons, hs]

/-- Parsing a two-digit zero-padded field followed by a non-digit. -/
theorem parse_pad2 (m : Nat) (hm : m ≤ 99) (c : Nat)
    (hc : isDigitB c = false) (r : Octstr) :
    octstr_parse_long (pad2 m ++ c :: r) 0 = some (m : Int) := by
  have h1 : m / 10 % 10 ≤ 9 := by omega
  have h2 : m % 10 ≤ 9 := by omega
  rw [octstr_parse_long]
  rw [List.drop_zero]
  have hshape : pad2 m ++ c :: r =
      (48 + m / 10 % 10) :: (48 + m % 10) :: c :: r := rfl
  rw [hshape, dropWhile_space_digit _ (by omega)]
  have hne45 : ¬ (48 + m / 10 % 10 = 45) := by omega
  have hne43 : ¬ (48 + m / 10 % 10 = 43) := by omega
  have hdig : isDigitB (48 + m / 10 % 10) = true := by
    simp only [isDigitB, decide_eq_true_eq]
    omega
  simp only [if_neg hne45, if_neg hne43, if_pos hdig]
  rw [digits_val_digit _ h1, digits_val_digit _ h2, digits_val_stop _ hc]
  congr 1
  omega

/-- Parsing the four-digit zero-padded year followed by a non-digit. -/
theorem parse_pad4 (y : Nat) (hy : y ≤ 9999) (c : Nat)
    (hc : isDigitB c = false) (r : Octstr) :
    octstr_parse_long (pad4 y ++ c :: r) 0 = some (y : Int) := by
  have h1 : y / 1000 % 10 ≤ 9 := by omega
  have h2 : y / 100 % 10 ≤ 9 := by omega
  have h3 : y / 10 % 10 ≤ 9 := by omega
  have h4 : y % 10 ≤ 9 := by omega
  rw [octstr_parse_long]
  rw [List.drop_zero]
  have hshape : pad4 y ++ c :: r =
      (48 + y / 1000 % 10) :: (48 + y / 100 % 10) :: (48 + y / 10 % 10) ::
        (48 + y % 10) :: c :: r := rfl
  rw [hshape, dropWhile_space_digit _ (by omega)]
  have hne45 : ¬ (48 + y / 1000 % 10 = 45) := by omega
  have hne43 : ¬ (48 + y / 1000 % 10 = 43) := by omega
  have hdig : isDigitB (48 + y / 1000 % 10) = true := by
    simp only [isDigitB, decide_eq_true_eq]
    omega
  simp only [if_neg hne45, if_neg hne43, if_pos hdig]
  rw [digits_val_digit _ h1, digits_val_digit _ h2, digits_val_digit _ h3,
    digits_val_digit _ h4, digits_val_stop _ hc]
  congr 1
  omega

/-- Field ranges under which the PAP formatter and parser round-trip. -/
def time_in_range (t : BrokenTime) : Prop :=
  t.year ≤ 9999 ∧ t.month ≤ 99 ∧ t.day ≤ 99 ∧ t.hour ≤ 99 ∧
    t.minute ≤ 99 ∧ t.sec ≤ 99

instance (t : BrokenTime) : Decidable (time_in_range t) := by
  unfold time_in_range
  infer_instance

/-- Field-by-field (lexicographic) order on broken times, encoded through
the base-100 key that coincides with it on in-range fields. -/
def time_key (t : BrokenTime) : Nat :=
  ((((t.year * 100 + t.month) * 100 + t.day) * 100 + t.hour) * 100 +
    t.minute) * 100 + t.sec

theorem set_time_length (t : BrokenTime) : (set_time t).length = 20 := rfl

theorem parse_set_time_0 (t : BrokenTime) (h : time_in_range t) :
    octstr_parse_long (set_time t) 0 = some (t.year : Int) := by
  have := parse_pad4 t.year h.1 45 isDigitB_45
    (pad2 t.month ++ 45 :: (pad2 t.day ++ 84 :: (pad2 t.hour ++
      58 :: (pad2 t.minute ++ 58 :: (pad2 t.sec ++ [90])))))
  exact this

theorem parse_set_time_5 (t : BrokenTime) (h : time_in_range t) :
    octstr_parse_long (set_time t) 5 = some (t.month : Int) := by
  have := parse_pad2 t.month h.2.1 45 isDigitB_45
    (pad2 t.day ++ 84 :: (pad2 t.hour ++ 58 :: (pad2 t.minute ++
      58 :: (pad2 t.sec ++ [90]))))
  exact this

theorem parse_set_time_8 (t : BrokenTime) (h : time_in_range t) :
    octstr_parse_long (set_time t) 8 = some (t.day : Int) := by
  have := parse_pad2 t.day h.2.2.1 84 isDigitB_84
    (pad2 t.hour ++ 58 :: (pad2 t.minute ++ 58 :: (pad2 t.sec ++ [90])))
  exact this

theorem parse_set_time_11 (t : BrokenTime) (h : time_in_range t) :
    octstr_parse_long (set_time t) 11 = some (t.hour : Int) := by
  have := parse_pad2 t.hour h.2.2.2.1 58 isDigitB_58
    (pad2 t.minute ++ 58 :: (pad2 t.sec ++ [90]))
  exact this

theorem parse_set_time_14 (t : BrokenTime) (h : time_in_range t) :
    octstr_parse_long (set_time t) 14 = some (t.minute : Int) := by
  have := parse_pad2 t.minute h.2.2.2.2.1 58 isDigitB_58
    (pad2 t.sec ++ [90])
  exact this

theorem parse_set_time_17 (t : BrokenTime) (h : time_in_range t) :
    octstr_parse_long (set_time t) 17 = some (t.sec : Int) := by
  have := parse_pad2 t.sec h.2.2.2.2.2 90 isDigitB_90 []
  exact this

theorem date_item_compare_of_parse (b : Octstr) (pos : Nat) (v val : Int)
    (hp : octstr_parse_long b pos = some v) :
    date_item_compare b val pos =
      if v < val then -1 else if val < v then 1 else 0 := by
  rw [date_item_compare, hp]

theorem before_loop_lt (b : Octstr) (td : List Int) (fuel j : Nat)
    (hj : j < b.length) (v : Int) (hp : octstr_parse_long b j = some v)
    (hlt : v < td.getD ((j - 5) / 3 + 1) 0) :
    deliver_before_loop b td (fuel + 1) j = false := by
  have hc : date_item_compare b (td.getD ((j - 5) / 3 + 1) 0) j = -1 := by
    rw [date_item_compare_of_parse b j v _ hp, if_pos hlt]
  rw [deliver_before_loop, if_pos hj, hc]
  norm_num

theorem before_loop_eq_step (b : Octstr) (td : List Int) (fuel j : Nat)
    (hj : j < b.length) (v : Int) (hp : octstr_parse_long b j = some v)
    (heq : v = td.getD ((j - 5) / 3 + 1) 0) :
    deliver_before_loop b td (fuel + 1) j =
      deliver_before_loop b td fuel (j + 3) := by
  have hc : date_item_compare b (td.getD ((j - 5) / 3 + 1) 0) j = 0 := by
    rw [date_item_compare_of_parse b j v _ hp, if_neg (by omega),
      if_neg (by omega)]
  rw [deliver_before_loop, if_pos hj, hc]
  norm_num

theorem before_loop_out (b : Octstr) (td : List Int) (fuel j : Nat)
    (hj : ¬ j < b.length) :
    deliver_before_loop b td (fuel + 1) j = false := by
  rw [deliver_before_loop, if_neg hj]

theorem deliver_before_test_cleared_some (b : Octstr) (now : BrokenTime) :
    deliver_before_test_cleared (some b) now =
      (if date_item_compare b ((time_items now).getD 0 0) 0 = 1 then true
       else if date_item_compare b ((time_items now).getD 0 0) 0 = -1 then
         false
       else deliver_before_loop b (time_items now) (b.length + 1) 5) := rfl

/-- If the PAP timestamp `t` (well-formed, in range) is not after the
current UTC time `now` field by field, the deadline test reports it as
not cleared - the push is expired. -/
theorem deliver_before_not_cleared_of_passed (t now : BrokenTime)
    (ht : time_in_range t) (hnow : time_in_range now)
    (hle : time_key t ≤ time_key now) :
    deliver_before_test_cleared (some (set_time t)) now = false := by
  obtain ⟨hty, htm, htd, hth, htmin, hts⟩ := ht
  obtain ⟨hny, hnm, hnd, hnh, hnmin, hns⟩ := hnow
  simp only [time_key] at hle
  rw [deliver_before_test_cleared_some]
  have hg0 : (time_items now).getD 0 0 = (now.year : Int) := rfl
  have hg1 : (time_items now).getD 1 0 = (now.month : Int) := rfl
  have hg2 : (time_items now).getD 2 0 = (now.day : Int) := rfl
  have hg3 : (time_items now).getD 3 0 = (now.hour : Int) := rfl
  have hg4 : (time_items now).getD 4 0 = (now.minute : Int) := rfl
  have hg5 : (time_items now).getD 5 0 = (now.sec : Int) := rfl
  have hrange : time_in_range t := ⟨hty, htm, htd, hth, htmin, hts⟩
  have hp0 := parse_set_time_0 t hrange
  have hlen : (set_time t).length = 20 := rfl
  rcases Nat.lt_trichotomy t.year now.year with hy | hy | hy
  · have hc : date_item_compare (set_time t) ((time_items now).getD 0 0)
        0 = -1 := by
      rw [date_item_compare_of_parse _ 0 _ _ hp0, hg0,
        if_pos (by exact_mod_cast hy)]
    rw [hc]
    norm_num
  · have hc : date_item_compare (set_time t) ((time_items now).getD 0 0)
        0 = 0 := by
      rw [date_item_compare_of_parse _ 0 _ _ hp0, hg0,
        if_neg (by omega), if_neg (by omega)]
    rw [hc]
    norm_num
    rw [hlen]
    have hp5 := parse_set_time_5 t hrange
    have hp8 := parse_set_time_8 t hrange
    have hp11 := parse_set_time_11 t hrange
    have hp14 := parse_set_time_14 t hrange
    have hp17 := parse_set_time_17 t hrange
    rcases Nat.lt_trichotomy t.month now.month with hm | hm | hm
    · exact before_loop_lt _ _ _ _ (by omega) _ hp5
        (by rw [show ((5 : Nat) - 5) / 3 + 1 = 1 from rfl, hg1]
            exact_mod_cast hm)
    · rw [before_loop_eq_step _ _ _ _ (by omega) _ hp5
        (by rw [show ((5 : Nat) - 5) / 3 + 1 = 1 from rfl, hg1]
            exact_mod_cast hm)]
      rcases Nat.lt_trichotomy t.day now.day with hd | hd | hd
      · exact before_loop_lt _ _ _ _ (by omega) _ hp8
          (by rw [show ((8 : Nat) - 5) / 3 + 1 = 2 from rfl, hg2]
              exact_mod_cast hd)
      · rw [before_loop_eq_step _ _ _ _ (by omega) _ hp8
          (by rw [show ((8 : Nat) - 5) / 3 + 1 = 2 from rfl, hg2]
              exact_mod_cast hd)]
        rcases Nat.lt_trichotomy t.hour now.hour with hh | hh | hh
        · exact before_loop_lt _ _ _ _ (by omega) _ hp11
            (by rw [show ((11 : Nat) - 5) / 3 + 1 = 3 from rfl, hg3]
                exact_mod_cast hh)
        · rw [before_loop_eq_step _ _ _ _ (by omega) _ hp11
            (by rw [show ((11 : Nat) - 5) / 3 + 1 = 3 from rfl, hg3]
                exact_mod_cast hh)]
          rcases Nat.lt_trichotomy t.minute now.minute with hmi | hmi | hmi
          · exact before_loop_lt _ _ _ _ (by omega) _ hp14
              (by rw [show ((14 : Nat) - 5) / 3 + 1 = 4 from rfl, hg4]
                  exact_mod_cast hmi)
          · rw [before_loop_eq_step _ _ _ _ (by omega) _ hp14
              (by rw [show ((14 : Nat) - 5) / 3 + 1 = 4 from rfl, hg4]
                  exact_mod_cast hmi)]
            rcases Nat.lt_trichotomy t.sec now.sec with hs | hs | hs
            · exact before_loop_lt _ _ _ _ (by omega) _ hp17
                (by rw [show ((17 : Nat) - 5) / 3 + 1 = 5 from rfl, hg5]
                    exact_mod_cast hs)
            · rw [before_loop_eq_step _ _ _ _ (by omega) _ hp17
                (by rw [show ((17 : Nat) - 5) / 3 + 1 = 5 from rfl, hg5]
                    exact_mod_cast hs)]
              exact before_loop_out _ _ _ _ (by omega)
            · omega
          · omega
        · omega
      · omega
    · omega
  · omega

/-! ### State infrastructure: freshness invariant and heap lemmas -/

/-- Internal well-formedness of a reachable engine state: every live push
machine's `push_id` is below the allocation counter, every session
pointer is below its counter, and heap keys are unique. -/
def EngineInv (st : PPGState) : Prop :=
  (∀ pm ∈ live_pushes st, pm.push_id < st.push_id_counter) ∧
  (∀ kv ∈ st.sessions, kv.1 < st.smid_counter) ∧
  (st.sessions.map (fun kv => kv.1)).Nodup

theorem mem_live_of_session {st : PPGState} {kv : Nat × SessionMachine}
    {x : PushMachine} (hkv : kv ∈ st.sessions)
    (hx : x ∈ kv.2.push_machines) : x ∈ live_pushes st := by
  rw [live_pushes, List.mem_append]
  left
  rw [List.mem_flatten]
  exact ⟨kv.2.push_machines, List.mem_map_of_mem _ hkv, hx⟩

theorem mem_live_of_unit {st : PPGState} {x : PushMachine}
    (hx : x ∈ st.ppg_unit_pushes) : x ∈ live_pushes st := by
  rw [live_pushes, List.mem_append]
  exact Or.inr hx

theorem heap_get_mem {st : PPGState} {sid : Nat} {m : SessionMachine}
    (h : heap_get st sid = some m) : (sid, m) ∈ st.sessions := by
  rw [heap_get, Option.map_eq_some'] at h
  obtain ⟨kv, hfind, hsnd⟩ := h
  have hmem := List.mem_of_find?_eq_some hfind
  have hkey := List.find?_some hfind
  simp only [decide_eq_true_eq] at hkey
  have hkv : kv = (sid, m) := by
    cases kv
    simp_all
  rwa [hkv] at hmem

theorem find_pi_none_iff (l : List PushMachine) (pi : Octstr) :
    find_pi l pi = none ↔ ∀ pm ∈ l, pm.pi_push_id ≠ pi := by
  rw [find_pi, List.find?_eq_none]
  constructor
  · intro h pm hpm
    have := h pm hpm
    simpa using this
  · intro h pm hpm
    simpa using h pm hpm

/-- Deleting a freshly appended machine (whose `push_id` is unlike every
pre-existing one) restores the list. -/
theorem filter_pid_append (l : List PushMachine) (p : Nat)
    (h : ∀ x ∈ l, x.push_id ≠ p) (pm : PushMachine)
    (hpm : pm.push_id = p) :
    (l ++ [pm]).filter (fun x => x.push_id ≠ p) = l := by
  rw [List.filter_append]
  have h1 : l.filter (fun x => x.push_id ≠ p) = l :=
    List.filter_eq_self.2 (fun x hx => by simp [h x hx])
  have h2 : [pm].filter (fun x => x.push_id ≠ p) = [] := by
    simp [hpm]
  rw [h1, h2, List.append_nil]

theorem find_key_map_keep (l : List (Nat × SessionMachine)) (sid : Nat)
    (m2 : SessionMachine) :
    (l.map (fun kv => if kv.1 = sid then (sid, m2) else kv)).find?
        (fun kv => kv.1 = sid) =
      (l.find? (fun kv => kv.1 = sid)).map (fun _ => (sid, m2)) := by
  induction l with
  | nil => rfl
  | cons kv rest ih =>
    by_cases hk : kv.1 = sid
    · simp [List.find?_cons, hk]
    · simp [List.find?_cons, hk, ih]

theorem heap_get_modify_same {st : PPGState} {sid : Nat}
    {m : SessionMachine} (hm : heap_get st sid = some m)
    (f : List PushMachine → List PushMachine) :
    heap_get (modify_session st sid f) sid =
      some { m with push_machines := f m.push_machines } := by
  simp only [modify_session, hm]
  simp only [heap_set, heap_get]
  rw [find_key_map_keep]
  rw [heap_get, Option.map_eq_some'] at hm
  obtain ⟨kv, hfind, hsnd⟩ := hm
  rw [hfind]
  simp

theorem modify_session_sessions {st : PPGState} {sid : Nat}
    {m : SessionMachine} (hm : heap_get st sid = some m)
    (f : List PushMachine → List PushMachine) :
    (modify_session st sid f).sessions =
      st.sessions.map (fun kv =>
        if kv.1 = sid then
          (sid, { m with push_machines := f m.push_machines })
        else kv) := by
  simp only [modify_session, hm]
  simp only [heap_set]

theorem heap_get_congr {st st' : PPGState} (h : st.sessions = st'.sessions)
    (sid : Nat) : heap_get st sid = heap_get st' sid := by
  rw [heap_get, heap_get, h]

theorem modify_session_comp {st : PPGState} {sid : Nat}
    {m : SessionMachine} (hm : heap_get st sid = some m)
    (f g : List PushMachine → List PushMachine) :
    modify_session (modify_session st sid f) sid g =
      modify_session st sid (fun l => g (f l)) := by
  have h2 := heap_get_modify_same hm f
  rw [modify_session]
  rw [h2]
  simp only [modify_session, hm]
  simp only [heap_set, List.map_map]
  congr 1
  apply List.map_congr_left
  intro kv _
  by_cases hk : kv.1 = sid <;> simp [Function.comp, hk]

theorem modify_session_restore {st : PPGState} {sid : Nat}
    {m : SessionMachine} (hm : heap_get st sid = some m)
    (hnodup : (st.sessions.map (fun kv => kv.1)).Nodup)
    (f : List PushMachine → List PushMachine)
    (hf : f m.push_machines = m.push_machines) :
    modify_session st sid f = st := by
  simp only [modify_session, hm, heap_set]
  have hmem := heap_get_mem hm
  have hmap : st.sessions.map (fun kv =>
      if kv.1 = sid then
        (sid, { m with push_machines := f m.push_machines })
      else kv) = st.sessions := by
    rw [hf]
    calc st.sessions.map (fun kv =>
          if kv.1 = sid then
            (sid, { m with push_machines := m.push_machines })
          else kv)
        = st.sessions.map id := by
          apply List.map_congr_left
          intro kv hkv
          by_cases hk : kv.1 = sid
          · have hkeq : kv = (sid, m) :=
              List.inj_on_of_nodup_map hnodup hkv hmem hk
            rw [hkeq, if_pos rfl]
            rfl
          · simp [hk]
      _ = st.sessions := List.map_id _
  rw [hmap]

theorem modify_session_unit (st : PPGState) (sid : Nat)
    (f : List PushMachine → List PushMachine) :
    (modify_session st sid f).ppg_unit_pushes = st.ppg_unit_pushes := by
  rcases h : heap_get st sid with _ | m <;> simp [modify_session, h, heap_set]

theorem modify_session_reg (st : PPGState) (sid : Nat)
    (f : List PushMachine → List PushMachine) :
    (modify_session st sid f).ppg_machines = st.ppg_machines := by
  rcases h : heap_get st sid with _ | m <;> simp [modify_session, h, heap_set]

theorem modify_session_dict (st : PPGState) (sid : Nat)
    (f : List PushMachine → List PushMachine) :
    (modify_session st sid f).http_clients = st.http_clients := by
  rcases h : heap_get st sid with _ | m <;> simp [modify_session, h, heap_set]

theorem modify_session_counter (st : PPGState) (sid : Nat)
    (f : List PushMachine → List PushMachine) :
    (modify_session st sid f).push_id_counter = st.push_id_counter := by
  rcases h : heap_get st sid with _ | m <;> simp [modify_session, h, heap_set]

theorem flatten_filter_key (l : List (Nat × SessionMachine)) (sid : Nat)
    (h : ∀ kv ∈ l, kv.1 = sid → kv.2.push_machines = []) :
    ((l.filter (fun kv => kv.1 ≠ sid)).map
        (fun kv => kv.2.push_machines)).flatten =
      (l.map (fun kv => kv.2.push_machines)).flatten := by
  induction l with
  | nil => rfl
  | cons kv rest ih =>
    by_cases hk : kv.1 = sid
    · have hnil : kv.2.push_machines = [] := h kv (by simp) hk
      rw [List.filter_cons, if_neg (by simp [hk]), List.map_cons,
        List.flatten_cons, hnil, List.nil_append]
      exact ih (fun kv' hkv' => h kv' (by simp [hkv']))
    · rw [List.filter_cons, if_pos (by simpa using hk), List.map_cons,
        List.map_cons, List.flatten_cons, List.flatten_cons]
      rw [ih (fun kv' hkv' => h kv' (by simp [hkv']))]

/-! ### The expired path of `handle_push_message` -/

theorem update_push_attr_pending (pm : PushMachine) (now : BrokenTime) :
    update_push_attr pm 0 PAP_PENDING now =
      { pm with message_state := PAP_PENDING } := rfl

theorem update_push_attr_expired_forbidden (pm : PushMachine)
    (now : BrokenTime) :
    update_push_attr pm PAP_FORBIDDEN PAP_EXPIRED now =
      { pm with message_state := PAP_EXPIRED,
                event_time := some (set_time now),
                desc := some (describe_code PAP_FORBIDDEN) } := rfl

/-- The expired path for a connectionless push: the machine is created,
marked `PENDING` then `EXPIRED` (with reason `PAP_FORBIDDEN`), the PI is
answered with `PAP_FORBIDDEN`, no OTA event is dispatched, and the
machine is removed again — only the push-id counter and the response
dictionary change. -/
theorem handle_push_message_expired_cless (st : PPGState) (e : PushMessage)
    (now : BrokenTime)
    (hsm : session_find st e.address_value = none)
    (hdm : e.delivery_method = PAP_UNCONFIRMED ∨
      e.delivery_method = PAP_NOT_SPECIFIED)
    (hpids : ∀ x ∈ st.ppg_unit_pushes, x.push_id ≠ st.push_id_counter)
    (hdup : find_pi st.ppg_unit_pushes e.pi_push_id = none)
    (htrans : e.transformable = true)
    (hbearer : select_bearer_network e = true)
    (hexp : ∀ a, delivery_time_constraints e.deliver_before_timestamp a now =
      .expired) :
    handle_push_message st e now =
      { st := { st with
          http_clients :=
            st.http_clients.filter (fun k => k ≠ e.pi_push_id),
          push_id_counter := st.push_id_counter + 1 },
        responses := [(e.pi_push_id, PAP_FORBIDDEN)], ota := [],
        attr_updates := [(0, PAP_PENDING),
          ((PAP_FORBIDDEN : Nat), PAP_EXPIRED)],
        ok := true } := by
  have hcless : cless_accepted e none = true := by
    rw [cless_accepted]
    rcases hdm with h | h <;> simp [h]
  have hdup' : (find_pi st.ppg_unit_pushes e.pi_push_id).isSome = false := by
    rw [hdup]
    rfl
  simp only [handle_push_message, hsm]
  simp [hcless, hdup', htrans, hbearer, hexp,
    store_push_data, update_push_data_with_attribute, remove_push_data,
    response_push_message, push_machine_create, update_push_attr,
    PAP_PENDING, PAP_EXPIRED, PAP_UNDELIVERABLE1, PAP_UNDELIVERABLE2,
    PAP_DELIVERED1, PAP_DELIVERED2, PAP_ABORTED]
  intro a ha
  exact hpids a ha

theorem map_key_swap_chain (l : List (Nat × SessionMachine)) (sid : Nat)
    (m1 m2 : SessionMachine) :
    (l.map (fun kv => if kv.1 = sid then (sid, m1) else kv)).map
        (fun kv => if kv.1 = sid then (sid, m2) else kv) =
      l.map (fun kv => if kv.1 = sid then (sid, m2) else kv) := by
  induction l with
  | nil => rfl
  | cons kv rest ih =>
    by_cases hk : kv.1 = sid <;> simp [hk, ih]

theorem map_key_id (l : List (Nat × SessionMachine)) (sid : Nat)
    (m : SessionMachine)
    (hnodup : (l.map (fun kv => kv.1)).Nodup)
    (hmem : (sid, m) ∈ l) :
    l.map (fun kv => if kv.1 = sid then (sid, m) else kv) = l := by
  calc l.map (fun kv => if kv.1 = sid then (sid, m) else kv)
      = l.map id := by
        apply List.map_congr_left
        intro kv hkv
        by_cases hk : kv.1 = sid
        · have hkeq : kv = (sid, m) :=
            List.inj_on_of_nodup_map hnodup hkv hmem hk
          rw [hkeq, if_pos rfl]
          rfl
        · simp [hk]
    _ = l := List.map_id _

theorem handle_push_message_expired_session (st : PPGState)
    (e : PushMessage) (now : BrokenTime) (sid : Nat) (m : SessionMachine)
    (hsm : session_find st e.address_value = some sid)
    (hm : heap_get st sid = some m)
    (hnodup : (st.sessions.map (fun kv => kv.1)).Nodup)
    (hpids : ∀ x ∈ m.push_machines, x.push_id ≠ st.push_id_counter)
    (hdup : find_pi m.push_machines e.pi_push_id = none)
    (htrans : e.transformable = true)
    (hbearer : select_bearer_network e = true)
    (hexp : ∀ a, delivery_time_constraints e.deliver_before_timestamp a now =
      .expired) :
    (handle_push_message st e now).responses =
      [(e.pi_push_id, PAP_FORBIDDEN)] ∧
    (handle_push_message st e now).ota = [] ∧
    (handle_push_message st e now).attr_updates =
      [((0 : Int), PAP_PENDING), ((PAP_FORBIDDEN : Int), PAP_EXPIRED)] ∧
    live_pushes (handle_push_message st e now).st = live_pushes st ∧
    (handle_push_message st e now).st.http_clients =
      st.http_clients.filter (fun k => k ≠ e.pi_push_id) := by
  have hcless : cless_accepted e (some sid) = false := by
    simp [cless_accepted]
  have hfind0 : st.sessions.find? (fun kv => kv.1 = sid) = some (sid, m) := by
    rw [heap_get, Option.map_eq_some'] at hm
    obtain ⟨kv, hfind, hsnd⟩ := hm
    have hkey := List.find?_some hfind
    simp only [decide_eq_true_eq] at hkey
    have hkv : kv = (sid, m) := by
      cases kv
      simp_all
    rwa [hkv] at hfind
  have hmem : (sid, m) ∈ st.sessions := by
    have hmm : heap_get st sid = some m := by
      rw [heap_get, hfind0]
      rfl
    exact heap_get_mem hmm
  have hdup' : (find_pi m.push_machines e.pi_push_id).isSome = false := by
    rw [hdup]
    rfl
  have hfl : List.filter (fun x => !decide (x.push_id = st.push_id_counter))
      m.push_machines = m.push_machines := by
    rw [List.filter_eq_self]
    intro a ha
    simpa using hpids a ha
  have heta : (⟨m.smid, m.session_id, m.pi_client_address, m.push_machines⟩ : SessionMachine) = m := rfl
  have hid : st.sessions.map
      (fun kv => if kv.1 = sid then (sid, m) else kv) = st.sessions :=
    map_key_id st.sessions sid m hnodup hmem
  have hm' : heap_get st sid = some m := by
    rw [heap_get, hfind0]
    rfl
  simp only [handle_push_message, hsm]
  simp [hcless, hdup', htrans, hbearer, hexp, hm',
    store_push_data, update_push_data_with_attribute, remove_push_data,
    response_push_message, push_machine_create, update_push_attr,
    modify_session, heap_get, heap_set, remove_pushless_session,
    heap_remove, find_key_map_keep, hfind0, live_pushes,
    -List.find?_map, -List.map_map, map_key_swap_chain, hfl, heta, hid,
    PAP_PENDING, PAP_EXPIRED, PAP_UNDELIVERABLE1, PAP_UNDELIVERABLE2,
    PAP_DELIVERED1, PAP_DELIVERED2, PAP_ABORTED]
  by_cases hemp : m.push_machines = []
  · simp only [if_pos hemp]
    have hkey : ∀ kv ∈ st.sessions, kv.1 = sid → kv.2.push_machines = [] := by
      intro kv hkv hk
      have hkeq : kv = (sid, m) := List.inj_on_of_nodup_map hnodup hkv hmem hk
      rw [hkeq]
      exact hemp
    have hflat := flatten_filter_key st.sessions sid hkey
    constructor
    · simp only [ne_eq, decide_not] at hflat
      rw [hflat]
    · trivial
  · simp [hemp]

theorem map_key_frozen (l : List (Nat × SessionMachine)) (sid : Nat)
    (m : SessionMachine) (h : ∀ kv ∈ l, kv.1 ≠ sid) :
    l.map (fun kv => if kv.1 = sid then (sid, m) else kv) = l := by
  calc l.map (fun kv => if kv.1 = sid then (sid, m) else kv)
      = l.map id := by
        apply List.map_congr_left
        intro kv hkv
        rw [if_neg (h kv hkv)]
        rfl
    _ = l := List.map_id _

theorem handle_push_message_expired_create (st : PPGState)
    (e : PushMessage) (now : BrokenTime)
    (hsm : session_find st e.address_value = none)
    (hcless : cless_accepted e none = false)
    (hkeys : ∀ kv ∈ st.sessions, kv.1 ≠ st.smid_counter)
    (hreg : ∀ a ∈ st.ppg_machines, a ≠ st.smid_counter)
    (htrans : e.transformable = true)
    (hbearer : select_bearer_network e = true)
    (hexp : ∀ a, delivery_time_constraints e.deliver_before_timestamp a now =
      .expired) :
    (handle_push_message st e now).responses =
      [(e.pi_push_id, PAP_FORBIDDEN)] ∧
    (handle_push_message st e now).ota = [] ∧
    (handle_push_message st e now).attr_updates =
      [((0 : Int), PAP_PENDING), ((PAP_FORBIDDEN : Int), PAP_EXPIRED)] ∧
    live_pushes (handle_push_message st e now).st = live_pushes st ∧
    (handle_push_message st e now).st.http_clients =
      st.http_clients.filter (fun k => k ≠ e.pi_push_id) := by
  have hfindn : st.sessions.find? (fun kv => decide (kv.1 = st.smid_counter)) =
      none := by
    rw [List.find?_eq_none]
    intro kv hkv
    simpa using hkeys kv hkv
  have hfz : ∀ m : SessionMachine, st.sessions.map
      (fun kv => if kv.1 = st.smid_counter then (st.smid_counter, m)
        else kv) = st.sessions :=
    fun m => map_key_frozen st.sessions st.smid_counter m hkeys
  have hfs : st.sessions.filter
      (fun kv => !decide (kv.1 = st.smid_counter)) = st.sessions := by
    rw [List.filter_eq_self]
    intro kv hkv
    simpa using hkeys kv hkv
  have hfr : st.ppg_machines.filter
      (fun a => !decide (a = st.smid_counter)) = st.ppg_machines := by
    rw [List.filter_eq_self]
    intro a ha
    simpa using hreg a ha
  simp only [handle_push_message, hsm]
  simp [hcless, htrans, hbearer, hexp, hfz, hfs, hfr, find_pi,
    session_machine_create, store_push_data, update_push_data_with_attribute,
    remove_push_data, response_push_message, push_machine_create,
    update_push_attr, modify_session, heap_get, heap_set,
    remove_pushless_session, heap_remove, List.find?_append, hfindn,
    live_pushes, -List.find?_map, -List.map_map,
    PAP_PENDING, PAP_EXPIRED, PAP_UNDELIVERABLE1, PAP_UNDELIVERABLE2,
    PAP_DELIVERED1, PAP_DELIVERED2, PAP_ABORTED]

/-- C5: for every push whose `deliver-before-timestamp` (PAP form, parsed
by `parse_date` and compared field by field against current UTC time) has
already passed, `handle_push_message` records the `PAP_PENDING` and then
the `PAP_EXPIRED` attribute with code `PAP_FORBIDDEN`, answers the PI with
`PAP_FORBIDDEN` (2004), dispatches no OTA event, and destroys the push
machine (the set of live push machines is unchanged), in every allocation
situation: connectionless, existing session, or freshly created session. -/
theorem handle_push_message_expired (st : PPGState) (e : PushMessage)
    (now t : BrokenTime)
    (hts : e.deliver_before_timestamp = some (set_time t))
    (ht : time_in_range t) (hnow : time_in_range now)
    (hle : time_key t ≤ time_key now)
    (htrans : e.transformable = true)
    (hbearer : select_bearer_network e = true)
    (hnodup : (st.sessions.map (fun kv => kv.1)).Nodup)
    (hfresh : ∀ x ∈ live_pushes st, x.push_id ≠ st.push_id_counter)
    (hkeys : ∀ kv ∈ st.sessions, kv.1 ≠ st.smid_counter)
    (hreg : ∀ a ∈ st.ppg_machines, a ≠ st.smid_counter)
    (hnew : ∀ x ∈ live_pushes st, x.pi_push_id ≠ e.pi_push_id) :
    (handle_push_message st e now).responses =
      [(e.pi_push_id, PAP_FORBIDDEN)] ∧
    (handle_push_message st e now).ota = [] ∧
    (handle_push_message st e now).attr_updates =
      [((0 : Int), PAP_PENDING), ((PAP_FORBIDDEN : Int), PAP_EXPIRED)] ∧
    live_pushes (handle_push_message st e now).st = live_pushes st := by
  have hexp : ∀ a, delivery_time_constraints e.deliver_before_timestamp a now =
      .expired := by
    intro a
    rw [hts, delivery_time_constraints]
    rw [deliver_before_not_cleared_of_passed t now ht hnow hle]
    simp
  cases hsm : session_find st e.address_value with
  | none =>
    by_cases hc : cless_accepted e none = true
    · have hdm : e.delivery_method = PAP_UNCONFIRMED ∨
          e.delivery_method = PAP_NOT_SPECIFIED := by
        rw [cless_accepted] at hc
        simpa using hc
      have hpids : ∀ x ∈ st.ppg_unit_pushes, x.push_id ≠ st.push_id_counter :=
        fun x hx => hfresh x (mem_live_of_unit hx)
      have hdup : find_pi st.ppg_unit_pushes e.pi_push_id = none :=
        (find_pi_none_iff _ _).2
          (fun pm hpm => hnew pm (mem_live_of_unit hpm))
      have h := handle_push_message_expired_cless st e now hsm hdm hpids hdup
        htrans hbearer hexp
      rw [h]
      refine ⟨rfl, rfl, rfl, ?_⟩
      simp [live_pushes]
    · have hcf : cless_accepted e none = false := by
        cases hcc : cless_accepted e none
        · rfl
        · exact absurd hcc hc
      have h := handle_push_message_expired_create st e now hsm hcf hkeys hreg
        htrans hbearer hexp
      exact ⟨h.1, h.2.1, h.2.2.1, h.2.2.2.1⟩
  | some sid =>
    have hg : ∃ m, heap_get st sid = some m := by
      rw [session_find] at hsm
      have hp := List.find?_some hsm
      cases hgg : heap_get st sid with
      | none =>
        rw [hgg] at hp
        simp at hp
      | some m => exact ⟨m, rfl⟩
    obtain ⟨m, hm⟩ := hg
    have hpids : ∀ x ∈ m.push_machines, x.push_id ≠ st.push_id_counter :=
      fun x hx => hfresh x (mem_live_of_session (heap_get_mem hm) hx)
    have hdup : find_pi m.push_machines e.pi_push_id = none :=
      (find_pi_none_iff _ _).2
        (fun pm hpm => hnew pm (mem_live_of_session (heap_get_mem hm) hpm))
    have h := handle_push_message_expired_session st e now sid m hsm hm hnodup
      hpids hdup htrans hbearer hexp
    exact ⟨h.1, h.2.1, h.2.2.1, h.2.2.2.1⟩

/-- A push carrying the S4 deadline `2000-01-01T00:00:00Z`, requiring
confirmed delivery so that a session is created for it. -/
def c5_deadline : BrokenTime :=
  { year := 2000, month := 1, day := 1, hour := 0, minute := 0, sec := 0 }

def c5_now : BrokenTime :=
  { year := 2020, month := 6, day := 15, hour := 12, minute := 0, sec := 0 }

def c5_msg : PushMessage :=
  { pi_push_id := str (r"p5"), address_value := str (r"A"),
    delivery_method := PAP_CONFIRMED,
    deliver_before_timestamp := some (set_time c5_deadline),
    deliver_after_timestamp := none, network_required := false,
    network := str (r"GSM"), bearer_required := false,
    bearer := str (r"SMS"), transformable := true }

theorem handle_push_message_expired_witness :
    (handle_push_message initial_state c5_msg c5_now).responses =
      [(c5_msg.pi_push_id, PAP_FORBIDDEN)] ∧
    (handle_push_message initial_state c5_msg c5_now).ota = [] ∧
    (handle_push_message initial_state c5_msg c5_now).attr_updates =
      [((0 : Int), PAP_PENDING), ((PAP_FORBIDDEN : Int), PAP_EXPIRED)] ∧
    live_pushes (handle_push_message initial_state c5_msg c5_now).st =
      live_pushes initial_state :=
  handle_push_message_expired initial_state c5_msg c5_now c5_deadline rfl
    (by decide) (by decide) (by decide) rfl (by decide) (by decide)
    (by decide) (by decide) (by decide) (by decide)

instance (l : List PushMachine) : Decidable (pi_unique l) := by
  unfold pi_unique
  infer_instance

def c1_after : Octstr :=
  set_time { year := 2030, month := 1, day := 1, hour := 0, minute := 0,
             sec := 0 }

def e_A : PushMessage :=
  { pi_push_id := str (r"p1"), address_value := str (r"A"),
    delivery_method := PAP_CONFIRMED, deliver_before_timestamp := none,
    deliver_after_timestamp := some c1_after, network_required := false,
    network := str (r"GSM"), bearer_required := false,
    bearer := str (r"SMS"), transformable := true }

def e_B : PushMessage :=
  { e_A with address_value := str (r"B") }

/-- C1, counterexample: two confirmed pushes carrying the same
`pi_push_id` to two different client addresses are both retained (their
`deliver-after` deadline makes them `TOO_EARLY`), since `store_push_data`
consults only the target session's own push list and the
`http_clients` dictionary entry is removed when the acceptance response
is sent; the union of live push machines then holds two distinct entries
with equal `pi_push_id`, contradicting the claimed global uniqueness. -/
theorem run_intake_cross_session_duplicate_pi :
    ¬ pi_unique (live_pushes (run_intake
      [(e_A, c5_now), (e_B, c5_now)])) := by decide

/-- The full intake invariant: push-id freshness, session-key freshness
and uniqueness, registry freshness, and per-list `pi_push_id`
uniqueness. -/
def IntakeInv (st : PPGState) : Prop :=
  (∀ pm ∈ live_pushes st, pm.push_id < st.push_id_counter) ∧
  (∀ kv ∈ st.sessions, kv.1 < st.smid_counter) ∧
  (st.sessions.map (fun kv => kv.1)).Nodup ∧
  (∀ a ∈ st.ppg_machines, a < st.smid_counter) ∧
  (∀ kv ∈ st.sessions, pi_unique kv.2.push_machines) ∧
  pi_unique st.ppg_unit_pushes

theorem pi_unique_sublist {l l2 : List PushMachine} (h : l2.Sublist l)
    (hu : pi_unique l) : pi_unique l2 :=
  List.Nodup.sublist (List.Sublist.map _ h) hu

theorem pi_unique_filter (l : List PushMachine) (p : PushMachine → Bool)
    (hu : pi_unique l) : pi_unique (l.filter p) :=
  pi_unique_sublist (List.filter_sublist l) hu

theorem pi_unique_append_one (l : List PushMachine) (pm : PushMachine)
    (hu : pi_unique l) (hpi : ∀ x ∈ l, x.pi_push_id ≠ pm.pi_push_id) :
    pi_unique (l ++ [pm]) := by
  rw [pi_unique, List.map_append, List.nodup_append]
  refine ⟨hu, List.nodup_singleton _, ?_⟩
  intro a ha hb
  simp only [List.mem_map] at ha
  obtain ⟨x, hx, hax⟩ := ha
  simp only [List.map_cons, List.map_nil, List.mem_singleton] at hb
  exact hpi x hx (hax.symm ▸ hb)

theorem live_pushes_fields (st : PPGState) (X : List Octstr) (c s : Nat) :
    live_pushes { st with http_clients := X, push_id_counter := c, smid_counter := s } = live_pushes st := rfl

theorem IntakeInv_bump (st : PPGState) (X : List Octstr)
    (h : IntakeInv st) :
    IntakeInv { st with http_clients := X, push_id_counter := st.push_id_counter + 1 } := by
  obtain ⟨hpid, hkey, hnodup, hreg, hsu, huu⟩ := h
  refine ⟨?_, hkey, hnodup, hreg, hsu, huu⟩
  intro pm hpm
  have hl : pm ∈ live_pushes st := hpm
  exact Nat.lt_succ_of_lt (hpid pm hl)

theorem handle_inv_cless (st : PPGState) (e : PushMessage)
    (now : BrokenTime)
    (hsm : session_find st e.address_value = none)
    (hdm : cless_accepted e none = true)
    (hinv : IntakeInv st) :
    IntakeInv (handle_push_message st e now).st := by
  obtain ⟨hpid, hkey, hnodup, hreg, hsu, huu⟩ := hinv
  have hdmor : e.delivery_method = PAP_UNCONFIRMED ∨
      e.delivery_method = PAP_NOT_SPECIFIED := by
    rw [cless_accepted] at hdm
    simpa using hdm
  have hconf : confirmation_requested e = false := by
    rw [confirmation_requested]
    rcases hdmor with h | h <;> simp [h, PAP_UNCONFIRMED, PAP_NOT_SPECIFIED,
      PAP_CONFIRMED, PAP_PREFERCONFIRMED]
  have hfl : List.filter (fun x => !decide (x.push_id = st.push_id_counter))
      st.ppg_unit_pushes = st.ppg_unit_pushes := by
    rw [List.filter_eq_self]
    intro a ha
    have := hpid a (mem_live_of_unit ha)
    simp
    omega
  by_cases hdupE : ∃ x ∈ st.ppg_unit_pushes, x.pi_push_id = e.pi_push_id
  · have hstate : (handle_push_message st e now).st =
        { st with
            http_clients := st.http_clients.filter
              (fun k => k ≠ e.pi_push_id),
            push_id_counter := st.push_id_counter + 1 } := by
      simp [handle_push_message, hsm, hdm, hdupE, store_push_data,
        update_push_data_with_attribute, remove_push_data,
        response_push_message, push_machine_create, update_push_attr,
        remove_pushless_session, hfl, find_pi,
            PAP_PENDING, PAP_EXPIRED, PAP_UNDELIVERABLE1, PAP_UNDELIVERABLE2,
            PAP_DELIVERED1, PAP_DELIVERED2, PAP_ABORTED,
        -List.find?_map, -List.map_map]
    rw [hstate]
    exact IntakeInv_bump st _ ⟨hpid, hkey, hnodup, hreg, hsu, huu⟩
  · have hnewpi : ∀ x ∈ st.ppg_unit_pushes, x.pi_push_id ≠ e.pi_push_id :=
      fun x hx hpi => hdupE ⟨x, hx, hpi⟩
    cases htr : e.transformable with
    | false =>
      have hstate : (handle_push_message st e now).st =
          { st with
              http_clients := st.http_clients.filter
                (fun k => k ≠ e.pi_push_id),
              push_id_counter := st.push_id_counter + 1 } := by
        simp [handle_push_message, hsm, hdm, hdupE, htr, store_push_data,
          update_push_data_with_attribute, remove_push_data,
          response_push_message, push_machine_create, update_push_attr,
          remove_pushless_session, hfl, find_pi,
            PAP_PENDING, PAP_EXPIRED, PAP_UNDELIVERABLE1, PAP_UNDELIVERABLE2,
            PAP_DELIVERED1, PAP_DELIVERED2, PAP_ABORTED,
          -List.find?_map, -List.map_map]
      rw [hstate]
      exact IntakeInv_bump st _ ⟨hpid, hkey, hnodup, hreg, hsu, huu⟩
    | true =>
      cases hbear : select_bearer_network e with
      | false =>
        have hstate : (handle_push_message st e now).st =
            { st with
                http_clients := st.http_clients.filter
                  (fun k => k ≠ e.pi_push_id),
                push_id_counter := st.push_id_counter + 1 } := by
          simp [handle_push_message, hsm, hdm, hdupE, htr, hbear,
            store_push_data, update_push_data_with_attribute,
            remove_push_data, response_push_message, push_machine_create,
            update_push_attr, remove_pushless_session, hfl, find_pi,
            PAP_PENDING, PAP_EXPIRED, PAP_UNDELIVERABLE1, PAP_UNDELIVERABLE2,
            PAP_DELIVERED1, PAP_DELIVERED2, PAP_ABORTED,
            -List.find?_map, -List.map_map]
        rw [hstate]
        exact IntakeInv_bump st _ ⟨hpid, hkey, hnodup, hreg, hsu, huu⟩
      | true =>
        cases hct : delivery_time_constraints e.deliver_before_timestamp
            e.deliver_after_timestamp now with
        | expired =>
          have hstate : (handle_push_message st e now).st =
              { st with
                  http_clients := st.http_clients.filter
                    (fun k => k ≠ e.pi_push_id),
                  push_id_counter := st.push_id_counter + 1 } := by
            simp [handle_push_message, hsm, hdm, hdupE, htr, hbear, hct,
              store_push_data, update_push_data_with_attribute,
              remove_push_data, response_push_message, push_machine_create,
              update_push_attr, remove_pushless_session, hfl, find_pi,
            PAP_PENDING, PAP_EXPIRED, PAP_UNDELIVERABLE1, PAP_UNDELIVERABLE2,
            PAP_DELIVERED1, PAP_DELIVERED2, PAP_ABORTED,
              -List.find?_map, -List.map_map]
          rw [hstate]
          exact IntakeInv_bump st _ ⟨hpid, hkey, hnodup, hreg, hsu, huu⟩
        | noConstraints =>
          have hstate : (handle_push_message st e now).st =
              { st with
                  http_clients := st.http_clients.filter
                    (fun k => k ≠ e.pi_push_id),
                  push_id_counter := st.push_id_counter + 1 } := by
            simp [handle_push_message, hsm, hdm, hdupE, htr, hbear, hct,
              hconf, store_push_data, update_push_data_with_attribute,
              remove_push_data, response_push_message, push_machine_create,
              update_push_attr, remove_pushless_session,
              update_session_data_with_headers, hfl, find_pi,
              PAP_PENDING, PAP_EXPIRED, PAP_UNDELIVERABLE1,
              PAP_UNDELIVERABLE2, PAP_DELIVERED1, PAP_DELIVERED2,
              PAP_ABORTED,
              -List.find?_map, -List.map_map]
          rw [hstate]
          exact IntakeInv_bump st _ ⟨hpid, hkey, hnodup, hreg, hsu, huu⟩
        | tooEarly =>
          have hstate : (handle_push_message st e now).st =
              { st with
                  ppg_unit_pushes := st.ppg_unit_pushes ++
                    [{ push_machine_create e st.push_id_counter with
                        message_state := PAP_PENDING }],
                  http_clients := st.http_clients.filter
                    (fun k => k ≠ e.pi_push_id),
                  push_id_counter := st.push_id_counter + 1 } := by
            simp [handle_push_message, hsm, hdm, hdupE, htr, hbear, hct,
              store_push_data, update_push_data_with_attribute,
              remove_push_data, response_push_message, push_machine_create,
              update_push_attr, remove_pushless_session, hfl, find_pi,
            PAP_PENDING, PAP_EXPIRED, PAP_UNDELIVERABLE1, PAP_UNDELIVERABLE2,
            PAP_DELIVERED1, PAP_DELIVERED2, PAP_ABORTED,
              -List.find?_map, -List.map_map]
          rw [hstate]
          refine ⟨?_, hkey, hnodup, hreg, hsu, ?_⟩
          · intro pm hpm
            rw [live_pushes, List.mem_append] at hpm
            rcases hpm with hflat | hunit
            · have hl : pm ∈ live_pushes st := by
                rw [live_pushes, List.mem_append]
                exact Or.inl hflat
              exact Nat.lt_succ_of_lt (hpid pm hl)
            · rw [List.mem_append] at hunit
              rcases hunit with hold | hnewm
              · exact Nat.lt_succ_of_lt (hpid pm (mem_live_of_unit hold))
              · rw [List.mem_singleton] at hnewm
                rw [hnewm]
                exact Nat.lt_succ_self _
          · exact pi_unique_append_one _ _ huu
              (fun x hx => hnewpi x hx)

theorem live_pushes_cases {st : PPGState} {x : PushMachine}
    (hx : x ∈ live_pushes st) :
    (∃ kv ∈ st.sessions, x ∈ kv.2.push_machines) ∨
      x ∈ st.ppg_unit_pushes := by
  rw [live_pushes, List.mem_append] at hx
  rcases hx with hf | hu
  · rw [List.mem_flatten] at hf
    obtain ⟨l, hl, hxl⟩ := hf
    rw [List.mem_map] at hl
    obtain ⟨kv, hkv, hlkv⟩ := hl
    exact Or.inl ⟨kv, hkv, hlkv ▸ hxl⟩
  · exact Or.inr hu

theorem keys_map_key (l : List (Nat × SessionMachine)) (sid : Nat)
    (M : SessionMachine) :
    (l.map (fun kv => if kv.1 = sid then (sid, M) else kv)).map
        (fun kv => kv.1) =
      l.map (fun kv => kv.1) := by
  induction l with
  | nil => rfl
  | cons kv rest ih =>
    by_cases hk : kv.1 = sid <;> simp [hk, ih]

theorem IntakeInv_reg_bump (st : PPGState) (R : List Nat) (X : List Octstr)
    (hR : ∀ a ∈ R, a < st.smid_counter) (h : IntakeInv st) :
    IntakeInv { st with ppg_machines := R, http_clients := X, push_id_counter := st.push_id_counter + 1 } := by
  obtain ⟨hpid, hkey, hnodup, _, hsu, huu⟩ := h
  refine ⟨?_, hkey, hnodup, hR, hsu, huu⟩
  intro pm hpm
  have hl : pm ∈ live_pushes st := hpm
  exact Nat.lt_succ_of_lt (hpid pm hl)

theorem IntakeInv_removal (st : PPGState) (sid : Nat) (R : List Nat)
    (X : List Octstr) (hR : ∀ a ∈ R, a < st.smid_counter)
    (h : IntakeInv st) :
    IntakeInv { st with sessions := st.sessions.filter (fun kv => kv.1 ≠ sid), ppg_machines := R, http_clients := X, push_id_counter := st.push_id_counter + 1 } := by
  obtain ⟨hpid, hkey, hnodup, _, hsu, huu⟩ := h
  refine ⟨?_, ?_, ?_, hR, ?_, huu⟩
  · intro pm hpm
    rcases live_pushes_cases hpm with ⟨kv, hkv, hx⟩ | hu
    · have hkv0 : kv ∈ st.sessions := List.mem_of_mem_filter hkv
      exact Nat.lt_succ_of_lt (hpid pm (mem_live_of_session hkv0 hx))
    · exact Nat.lt_succ_of_lt (hpid pm (mem_live_of_unit hu))
  · intro kv hkv
    exact hkey kv (List.mem_of_mem_filter hkv)
  · exact List.Nodup.sublist
      (List.Sublist.map _ (List.filter_sublist st.sessions)) hnodup
  · intro kv hkv
    exact hsu kv (List.mem_of_mem_filter hkv)

theorem IntakeInv_append (st : PPGState) (sid : Nat) (m : SessionMachine)
    (pm2 : PushMachine) (R : List Nat) (X : List Octstr)
    (hmem : (sid, m) ∈ st.sessions)
    (hsid : sid < st.smid_counter)
    (hR : ∀ a ∈ R, a < st.smid_counter)
    (hpm2pid : pm2.push_id = st.push_id_counter)
    (hpm2pi : ∀ x ∈ m.push_machines, x.pi_push_id ≠ pm2.pi_push_id)
    (h : IntakeInv st) :
    IntakeInv { st with sessions := st.sessions.map (fun kv => if kv.1 = sid then (sid, { m with push_machines := m.push_machines ++ [pm2] }) else kv), ppg_machines := R, http_clients := X, push_id_counter := st.push_id_counter + 1 } := by
  obtain ⟨hpid, hkey, hnodup, _, hsu, huu⟩ := h
  have hpmu : pi_unique m.push_machines := hsu (sid, m) hmem
  refine ⟨?_, ?_, ?_, hR, ?_, huu⟩
  · intro pm hpm
    rcases live_pushes_cases hpm with ⟨kv, hkv, hx⟩ | hu
    · rw [List.mem_map] at hkv
      obtain ⟨kv0, hkv0, hg⟩ := hkv
      by_cases hk : kv0.1 = sid
      · rw [if_pos hk] at hg
        rw [← hg] at hx
        rw [List.mem_append] at hx
        rcases hx with hold | hnew
        · exact Nat.lt_succ_of_lt (hpid pm (mem_live_of_session hmem hold))
        · rw [List.mem_singleton] at hnew
          rw [hnew, hpm2pid]
          exact Nat.lt_succ_self _
      · rw [if_neg hk] at hg
        rw [← hg] at hx
        exact Nat.lt_succ_of_lt (hpid pm (mem_live_of_session hkv0 hx))
    · exact Nat.lt_succ_of_lt (hpid pm (mem_live_of_unit hu))
  · intro kv hkv
    rw [List.mem_map] at hkv
    obtain ⟨kv0, hkv0, hg⟩ := hkv
    by_cases hk : kv0.1 = sid
    · rw [if_pos hk] at hg
      rw [← hg]
      exact hsid
    · rw [if_neg hk] at hg
      rw [← hg]
      exact hkey kv0 hkv0
  · rw [keys_map_key]
    exact hnodup
  · intro kv hkv
    rw [List.mem_map] at hkv
    obtain ⟨kv0, hkv0, hg⟩ := hkv
    by_cases hk : kv0.1 = sid
    · rw [if_pos hk] at hg
      rw [← hg]
      exact pi_unique_append_one _ _ hpmu hpm2pi
    · rw [if_neg hk] at hg
      rw [← hg]
      exact hsu kv0 hkv0

theorem filter_key_map_out (l : List (Nat × SessionMachine)) (sid : Nat)
    (M : SessionMachine) :
    List.filter (fun kv => !decide (kv.1 = sid))
        (l.map (fun kv => if kv.1 = sid then (sid, M) else kv)) =
      List.filter (fun kv => !decide (kv.1 = sid)) l := by
  induction l with
  | nil => rfl
  | cons kv rest ih =>
    by_cases hk : kv.1 = sid <;> simp [hk, ih]

theorem handle_inv_session (st : PPGState) (e : PushMessage)
    (now : BrokenTime) (sid : Nat)
    (hsm : session_find st e.address_value = some sid)
    (hinv : IntakeInv st) :
    IntakeInv (handle_push_message st e now).st := by
  obtain ⟨hpid, hkey, hnodup, hreg, hsu, huu⟩ := hinv
  have hsidreg : sid ∈ st.ppg_machines := by
    rw [session_find] at hsm
    exact List.mem_of_find?_eq_some hsm
  have hsid : sid < st.smid_counter := hreg sid hsidreg
  have hg : ∃ m, heap_get st sid = some m := by
    rw [session_find] at hsm
    have hp := List.find?_some hsm
    cases hgg : heap_get st sid with
    | none =>
      rw [hgg] at hp
      simp at hp
    | some m => exact ⟨m, rfl⟩
  obtain ⟨m, hm⟩ := hg
  have hmem : (sid, m) ∈ st.sessions := heap_get_mem hm
  have hfind0 : st.sessions.find? (fun kv => kv.1 = sid) = some (sid, m) := by
    have h0 := hm
    rw [heap_get, Option.map_eq_some'] at h0
    obtain ⟨kv, hfind, hsnd⟩ := h0
    have hkeyv := List.find?_some hfind
    simp only [decide_eq_true_eq] at hkeyv
    have hkv : kv = (sid, m) := by
      cases kv
      simp_all
    rwa [hkv] at hfind
  have hpids : ∀ x ∈ m.push_machines, x.push_id ≠ st.push_id_counter := by
    intro x hx
    have := hpid x (mem_live_of_session hmem hx)
    omega
  have hfl : List.filter (fun x => !decide (x.push_id = st.push_id_counter))
      m.push_machines = m.push_machines := by
    rw [List.filter_eq_self]
    intro a ha
    simpa using hpids a ha
  have heta : (⟨m.smid, m.session_id, m.pi_client_address, m.push_machines⟩ : SessionMachine) = m := rfl
  have hid : st.sessions.map
      (fun kv => if kv.1 = sid then (sid, m) else kv) = st.sessions :=
    map_key_id st.sessions sid m hnodup hmem
  have hcless : cless_accepted e (some sid) = false := by
    simp [cless_accepted]
  have hinv2 : IntakeInv st := ⟨hpid, hkey, hnodup, hreg, hsu, huu⟩
  have hRdup : ∀ a ∈ st.ppg_machines ++ [sid], a < st.smid_counter := by
    intro a ha
    rw [List.mem_append] at ha
    rcases ha with h | h
    · exact hreg a h
    · rw [List.mem_singleton] at h
      rw [h]
      exact hsid
  have hRchurn : ∀ a ∈ st.ppg_machines.filter (fun a => a ≠ sid) ++ [sid],
      a < st.smid_counter := by
    intro a ha
    rw [List.mem_append] at ha
    rcases ha with h | h
    · exact hreg a (List.mem_of_mem_filter h)
    · rw [List.mem_singleton] at h
      rw [h]
      exact hsid
  have hRrem : ∀ a ∈ st.ppg_machines.filter (fun a => a ≠ sid),
      a < st.smid_counter :=
    fun a ha => hreg a (List.mem_of_mem_filter ha)
  by_cases hdupE : ∃ x ∈ m.push_machines, x.pi_push_id = e.pi_push_id
  · have hcondF : ¬ ∀ a ∈ m.push_machines, a.push_id = st.push_id_counter := by
      intro hall
      obtain ⟨x, hx, _⟩ := hdupE
      exact hpids x hx (hall x hx)
    have hne : ¬ (m.push_machines = []) := by
      obtain ⟨x, hx, _⟩ := hdupE
      intro hnil
      rw [hnil] at hx
      exact absurd hx (List.not_mem_nil x)
    have hstate : (handle_push_message st e now).st = { st with ppg_machines := st.ppg_machines ++ [sid], http_clients := st.http_clients.filter (fun k => k ≠ e.pi_push_id), push_id_counter := st.push_id_counter + 1 } := by
      simp [handle_push_message, hsm, hcless, hdupE, hcondF, hne, store_push_data,
        update_push_data_with_attribute, remove_push_data,
        response_push_message, push_machine_create, update_push_attr,
        modify_session, heap_get, heap_set, remove_pushless_session,
        heap_remove, find_key_map_keep, hfind0, map_key_swap_chain, hfl,
        heta, hid, find_pi, PAP_PENDING, PAP_EXPIRED, PAP_UNDELIVERABLE1,
        PAP_UNDELIVERABLE2, PAP_DELIVERED1, PAP_DELIVERED2, PAP_ABORTED,
        -List.find?_map, -List.map_map]
    rw [hstate]
    exact IntakeInv_reg_bump st _ _ hRdup hinv2
  · have hnewpi_m : ∀ x ∈ m.push_machines, x.pi_push_id ≠ e.pi_push_id :=
      fun x hx hpi => hdupE ⟨x, hx, hpi⟩
    have hrestore : ∀ hemp : ¬ (m.push_machines = []),
        ¬ ∀ a ∈ m.push_machines, a.push_id = st.push_id_counter := by
      intro hemp hall
      obtain ⟨x, hx⟩ := List.exists_mem_of_ne_nil m.push_machines hemp
      exact hpids x hx (hall x hx)
    cases htr : e.transformable with
    | false =>
      by_cases hemp : m.push_machines = []
      · have hstate : (handle_push_message st e now).st = { st with sessions := st.sessions.filter (fun kv => kv.1 ≠ sid), ppg_machines := st.ppg_machines.filter (fun a => a ≠ sid), http_clients := st.http_clients.filter (fun k => k ≠ e.pi_push_id), push_id_counter := st.push_id_counter + 1 } := by
          simp [handle_push_message, hsm, hcless, hdupE, htr, hemp, filter_key_map_out,
            store_push_data, update_push_data_with_attribute,
            remove_push_data, response_push_message, push_machine_create,
            update_push_attr, modify_session, heap_get, heap_set,
            remove_pushless_session, heap_remove, find_key_map_keep, hfind0,
            map_key_swap_chain, hfl, heta, hid, find_pi, PAP_PENDING,
            PAP_EXPIRED, PAP_UNDELIVERABLE1, PAP_UNDELIVERABLE2,
            PAP_DELIVERED1, PAP_DELIVERED2, PAP_ABORTED,
            -List.find?_map, -List.map_map]
        rw [hstate]
        exact IntakeInv_removal st sid _ _ hRrem hinv2
      · have hcondF := hrestore hemp
        have hstate : (handle_push_message st e now).st = { st with ppg_machines := st.ppg_machines.filter (fun a => a ≠ sid) ++ [sid], http_clients := st.http_clients.filter (fun k => k ≠ e.pi_push_id), push_id_counter := st.push_id_counter + 1 } := by
          simp [handle_push_message, hsm, hcless, hdupE, htr, hcondF, hemp,
            store_push_data, update_push_data_with_attribute,
            remove_push_data, response_push_message, push_machine_create,
            update_push_attr, modify_session, heap_get, heap_set,
            remove_pushless_session, heap_remove, find_key_map_keep, hfind0,
            map_key_swap_chain, hfl, heta, hid, find_pi, PAP_PENDING,
            PAP_EXPIRED, PAP_UNDELIVERABLE1, PAP_UNDELIVERABLE2,
            PAP_DELIVERED1, PAP_DELIVERED2, PAP_ABORTED,
            -List.find?_map, -List.map_map]
        rw [hstate]
        exact IntakeInv_reg_bump st _ _ hRchurn hinv2
    | true =>
      cases hbear : select_bearer_network e with
      | false =>
        by_cases hemp : m.push_machines = []
        · have hstate : (handle_push_message st e now).st = { st with sessions := st.sessions.filter (fun kv => kv.1 ≠ sid), ppg_machines := st.ppg_machines.filter (fun a => a ≠ sid), http_clients := st.http_clients.filter (fun k => k ≠ e.pi_push_id), push_id_counter := st.push_id_counter + 1 } := by
            simp [handle_push_message, hsm, hcless, hdupE, htr, hbear, hemp, filter_key_map_out,
              store_push_data, update_push_data_with_attribute,
              remove_push_data, response_push_message, push_machine_create,
              update_push_attr, modify_session, heap_get, heap_set,
              remove_pushless_session, heap_remove, find_key_map_keep,
              hfind0, map_key_swap_chain, hfl, heta, hid, find_pi,
              PAP_PENDING, PAP_EXPIRED, PAP_UNDELIVERABLE1,
              PAP_UNDELIVERABLE2, PAP_DELIVERED1, PAP_DELIVERED2,
              PAP_ABORTED, -List.find?_map, -List.map_map]
          rw [hstate]
          exact IntakeInv_removal st sid _ _ hRrem hinv2
        · have hcondF := hrestore hemp
          have hstate : (handle_push_message st e now).st = { st with ppg_machines := st.ppg_machines.filter (fun a => a ≠ sid) ++ [sid], http_clients := st.http_clients.filter (fun k => k ≠ e.pi_push_id), push_id_counter := st.push_id_counter + 1 } := by
            simp [handle_push_message, hsm, hcless, hdupE, htr, hbear,
              hcondF, hemp, store_push_data, update_push_data_with_attribute,
              remove_push_data, response_push_message, push_machine_create,
              update_push_attr, modify_session, heap_get, heap_set,
              remove_pushless_session, heap_remove, find_key_map_keep,
              hfind0, map_key_swap_chain, hfl, heta, hid, find_pi,
              PAP_PENDING, PAP_EXPIRED, PAP_UNDELIVERABLE1,
              PAP_UNDELIVERABLE2, PAP_DELIVERED1, PAP_DELIVERED2,
              PAP_ABORTED, -List.find?_map, -List.map_map]
          rw [hstate]
          exact IntakeInv_reg_bump st _ _ hRchurn hinv2
      | true =>
        cases hct : delivery_time_constraints e.deliver_before_timestamp
            e.deliver_after_timestamp now with
        | expired =>
          by_cases hemp : m.push_machines = []
          · have hstate : (handle_push_message st e now).st = { st with sessions := st.sessions.filter (fun kv => kv.1 ≠ sid), ppg_machines := st.ppg_machines.filter (fun a => a ≠ sid), http_clients := st.http_clients.filter (fun k => k ≠ e.pi_push_id), push_id_counter := st.push_id_counter + 1 } := by
              simp [handle_push_message, hsm, hcless, hdupE, htr, hbear,
                hct, hemp, filter_key_map_out, store_push_data, update_push_data_with_attribute,
                remove_push_data, response_push_message, push_machine_create,
                update_push_attr, modify_session, heap_get, heap_set,
                remove_pushless_session, heap_remove, find_key_map_keep,
                hfind0, map_key_swap_chain, hfl, heta, hid, find_pi,
                PAP_PENDING, PAP_EXPIRED, PAP_UNDELIVERABLE1,
                PAP_UNDELIVERABLE2, PAP_DELIVERED1, PAP_DELIVERED2,
                PAP_ABORTED, -List.find?_map, -List.map_map]
            rw [hstate]
            exact IntakeInv_removal st sid _ _ hRrem hinv2
          · have hcondF := hrestore hemp
            have hstate : (handle_push_message st e now).st = { st with ppg_machines := st.ppg_machines.filter (fun a => a ≠ sid) ++ [sid], http_clients := st.http_clients.filter (fun k => k ≠ e.pi_push_id), push_id_counter := st.push_id_counter + 1 } := by
              simp [handle_push_message, hsm, hcless, hdupE, htr, hbear,
                hct, hcondF, hemp, store_push_data,
                update_push_data_with_attribute, remove_push_data,
                response_push_message, push_machine_create,
                update_push_attr, modify_session, heap_get, heap_set,
                remove_pushless_session, heap_remove, find_key_map_keep,
                hfind0, map_key_swap_chain, hfl, heta, hid, find_pi,
                PAP_PENDING, PAP_EXPIRED, PAP_UNDELIVERABLE1,
                PAP_UNDELIVERABLE2, PAP_DELIVERED1, PAP_DELIVERED2,
                PAP_ABORTED, -List.find?_map, -List.map_map]
            rw [hstate]
            exact IntakeInv_reg_bump st _ _ hRchurn hinv2
        | tooEarly =>
          have hstate : (handle_push_message st e now).st = { st with sessions := st.sessions.map (fun kv => if kv.1 = sid then (sid, { m with push_machines := m.push_machines ++ [{ push_machine_create e st.push_id_counter with message_state := PAP_PENDING }] }) else kv), ppg_machines := st.ppg_machines.filter (fun a => a ≠ sid) ++ [sid], http_clients := st.http_clients.filter (fun k => k ≠ e.pi_push_id), push_id_counter := st.push_id_counter + 1 } := by
            simp [handle_push_message, hsm, hcless, hdupE, htr, hbear, hct,
              store_push_data, update_push_data_with_attribute,
              remove_push_data, response_push_message, push_machine_create,
              update_push_attr, modify_session, heap_get, heap_set,
              remove_pushless_session, heap_remove, find_key_map_keep,
              hfind0, map_key_swap_chain, hfl, heta, hid, find_pi,
              PAP_PENDING, PAP_EXPIRED, PAP_UNDELIVERABLE1,
              PAP_UNDELIVERABLE2, PAP_DELIVERED1, PAP_DELIVERED2,
              PAP_ABORTED, -List.find?_map, -List.map_map]
          rw [hstate]
          exact IntakeInv_append st sid m _ _ _ hmem hsid hRchurn rfl
            (fun x hx => hnewpi_m x hx) hinv2
        | noConstraints =>
          cases hconf : confirmation_requested e with
          | true =>
            have hstate : (handle_push_message st e now).st = { st with sessions := st.sessions.map (fun kv => if kv.1 = sid then (sid, { m with push_machines := m.push_machines ++ [{ push_machine_create e st.push_id_counter with message_state := PAP_PENDING }] }) else kv), ppg_machines := st.ppg_machines.filter (fun a => a ≠ sid) ++ [sid], http_clients := st.http_clients.filter (fun k => k ≠ e.pi_push_id), push_id_counter := st.push_id_counter + 1 } := by
              simp [handle_push_message, hsm, hcless, hdupE, htr, hbear,
                hct, hconf, store_push_data,
                update_push_data_with_attribute, remove_push_data,
                response_push_message, push_machine_create,
                update_push_attr, update_session_data_with_headers,
                modify_session, heap_get, heap_set, remove_pushless_session,
                heap_remove, find_key_map_keep, hfind0, map_key_swap_chain,
                hfl, heta, hid, find_pi, PAP_PENDING, PAP_EXPIRED,
                PAP_UNDELIVERABLE1, PAP_UNDELIVERABLE2, PAP_DELIVERED1,
                PAP_DELIVERED2, PAP_ABORTED,
                -List.find?_map, -List.map_map]
            rw [hstate]
            exact IntakeInv_append st sid m _ _ _ hmem hsid hRchurn rfl
              (fun x hx => hnewpi_m x hx) hinv2
          | false =>
            have hstate : (handle_push_message st e now).st = { st with ppg_machines := st.ppg_machines.filter (fun a => a ≠ sid) ++ [sid], http_clients := st.http_clients.filter (fun k => k ≠ e.pi_push_id), push_id_counter := st.push_id_counter + 1 } := by
              simp [handle_push_message, hsm, hcless, hdupE, htr, hbear,
                hct, hconf, store_push_data,
                update_push_data_with_attribute, remove_push_data,
                response_push_message, push_machine_create,
                update_push_attr, update_session_data_with_headers,
                modify_session, heap_get, heap_set, remove_pushless_session,
                heap_remove, find_key_map_keep, hfind0, map_key_swap_chain,
                hfl, heta, hid, find_pi, PAP_PENDING, PAP_EXPIRED,
                PAP_UNDELIVERABLE1, PAP_UNDELIVERABLE2, PAP_DELIVERED1,
                PAP_DELIVERED2, PAP_ABORTED,
                -List.find?_map, -List.map_map]
            rw [hstate]
            exact IntakeInv_reg_bump st _ _ hRchurn hinv2

theorem IntakeInv_bump2 (st : PPGState) (X : List Octstr)
    (h : IntakeInv st) :
    IntakeInv { st with http_clients := X, push_id_counter := st.push_id_counter + 1, smid_counter := st.smid_counter + 1 } := by
  obtain ⟨hpid, hkey, hnodup, hreg, hsu, huu⟩ := h
  refine ⟨?_, ?_, hnodup, ?_, hsu, huu⟩
  · intro pm hpm
    have hl : pm ∈ live_pushes st := hpm
    exact Nat.lt_succ_of_lt (hpid pm hl)
  · intro kv hkv
    exact Nat.lt_succ_of_lt (hkey kv hkv)
  · intro a ha
    exact Nat.lt_succ_of_lt (hreg a ha)

theorem IntakeInv_create_append (st : PPGState) (L : List PushMachine)
    (X : List Octstr) (caddr : Octstr)
    (hLu : pi_unique L)
    (hLpid : ∀ x ∈ L, x.push_id < st.push_id_counter + 1)
    (h : IntakeInv st) :
    IntakeInv { st with sessions := st.sessions ++ [(st.smid_counter, { smid := st.smid_counter, session_id := 0, pi_client_address := caddr, push_machines := L })], ppg_machines := st.ppg_machines ++ [st.smid_counter], http_clients := X, push_id_counter := st.push_id_counter + 1, smid_counter := st.smid_counter + 1 } := by
  obtain ⟨hpid, hkey, hnodup, hreg, hsu, huu⟩ := h
  refine ⟨?_, ?_, ?_, ?_, ?_, huu⟩
  · intro pm hpm
    rcases live_pushes_cases hpm with ⟨kv, hkv, hx⟩ | hu
    · rw [List.mem_append] at hkv
      rcases hkv with hold | hnew
      · exact Nat.lt_succ_of_lt (hpid pm (mem_live_of_session hold hx))
      · rw [List.mem_singleton] at hnew
        rw [hnew] at hx
        exact hLpid pm hx
    · exact Nat.lt_succ_of_lt (hpid pm (mem_live_of_unit hu))
  · intro kv hkv
    rw [List.mem_append] at hkv
    rcases hkv with hold | hnew
    · exact Nat.lt_succ_of_lt (hkey kv hold)
    · rw [List.mem_singleton] at hnew
      rw [hnew]
      exact Nat.lt_succ_self _
  · rw [List.map_append, List.nodup_append]
    refine ⟨hnodup, List.nodup_singleton _, ?_⟩
    intro a ha hb
    simp only [List.map_cons, List.map_nil, List.mem_singleton] at hb
    rw [List.mem_map] at ha
    obtain ⟨kv, hkv, hak⟩ := ha
    have := hkey kv hkv
    rw [hak, hb] at this
    omega
  · intro a ha
    rw [List.mem_append] at ha
    rcases ha with hold | hnew
    · exact Nat.lt_succ_of_lt (hreg a hold)
    · rw [List.mem_singleton] at hnew
      rw [hnew]
      exact Nat.lt_succ_self _
  · intro kv hkv
    rw [List.mem_append] at hkv
    rcases hkv with hold | hnew
    · exact hsu kv hold
    · rw [List.mem_singleton] at hnew
      rw [hnew]
      exact hLu

theorem handle_inv_create (st : PPGState) (e : PushMessage)
    (now : BrokenTime)
    (hsm : session_find st e.address_value = none)
    (hcless : cless_accepted e none = false)
    (hinv : IntakeInv st) :
    IntakeInv (handle_push_message st e now).st := by
  obtain ⟨hpid, hkey, hnodup, hreg, hsu, huu⟩ := hinv
  have hinv2 : IntakeInv st := ⟨hpid, hkey, hnodup, hreg, hsu, huu⟩
  have hkeys : ∀ kv ∈ st.sessions, kv.1 ≠ st.smid_counter := by
    intro kv hkv
    have := hkey kv hkv
    omega
  have hfindn : st.sessions.find? (fun kv => decide (kv.1 = st.smid_counter)) =
      none := by
    rw [List.find?_eq_none]
    intro kv hkv
    simpa using hkeys kv hkv
  have hfz : ∀ M : SessionMachine, st.sessions.map
      (fun kv => if kv.1 = st.smid_counter then (st.smid_counter, M)
        else kv) = st.sessions :=
    fun M => map_key_frozen st.sessions st.smid_counter M hkeys
  have hfs : st.sessions.filter
      (fun kv => !decide (kv.1 = st.smid_counter)) = st.sessions := by
    rw [List.filter_eq_self]
    intro kv hkv
    simpa using hkeys kv hkv
  have hfr : st.ppg_machines.filter
      (fun a => !decide (a = st.smid_counter)) = st.ppg_machines := by
    rw [List.filter_eq_self]
    intro a ha
    have := hreg a ha
    simp
    omega
  cases htr : e.transformable with
  | false =>
    have hstate : (handle_push_message st e now).st = { st with http_clients := st.http_clients.filter (fun k => k ≠ e.pi_push_id), push_id_counter := st.push_id_counter + 1, smid_counter := st.smid_counter + 1 } := by
      simp [handle_push_message, hsm, hcless, htr, hfz, hfs, hfr, find_pi,
        session_machine_create, store_push_data,
        update_push_data_with_attribute, remove_push_data,
        response_push_message, push_machine_create, update_push_attr,
        modify_session, heap_get, heap_set, remove_pushless_session,
        heap_remove, List.find?_append, hfindn, PAP_PENDING, PAP_EXPIRED,
        PAP_UNDELIVERABLE1, PAP_UNDELIVERABLE2, PAP_DELIVERED1,
        PAP_DELIVERED2, PAP_ABORTED, -List.find?_map, -List.map_map]
    rw [hstate]
    exact IntakeInv_bump2 st _ hinv2
  | true =>
    cases hbear : select_bearer_network e with
    | false =>
      have hstate : (handle_push_message st e now).st = { st with http_clients := st.http_clients.filter (fun k => k ≠ e.pi_push_id), push_id_counter := st.push_id_counter + 1, smid_counter := st.smid_counter + 1 } := by
        simp [handle_push_message, hsm, hcless, htr, hbear, hfz, hfs, hfr,
          find_pi, session_machine_create, store_push_data,
          update_push_data_with_attribute, remove_push_data,
          response_push_message, push_machine_create, update_push_attr,
          modify_session, heap_get, heap_set, remove_pushless_session,
          heap_remove, List.find?_append, hfindn, PAP_PENDING, PAP_EXPIRED,
          PAP_UNDELIVERABLE1, PAP_UNDELIVERABLE2, PAP_DELIVERED1,
          PAP_DELIVERED2, PAP_ABORTED, -List.find?_map, -List.map_map]
      rw [hstate]
      exact IntakeInv_bump2 st _ hinv2
    | true =>
      cases hct : delivery_time_constraints e.deliver_before_timestamp
          e.deliver_after_timestamp now with
      | expired =>
        have hstate : (handle_push_message st e now).st = { st with http_clients := st.http_clients.filter (fun k => k ≠ e.pi_push_id), push_id_counter := st.push_id_counter + 1, smid_counter := st.smid_counter + 1 } := by
          simp [handle_push_message, hsm, hcless, htr, hbear, hct, hfz, hfs,
            hfr, find_pi, session_machine_create, store_push_data,
            update_push_data_with_attribute, remove_push_data,
            response_push_message, push_machine_create, update_push_attr,
            modify_session, heap_get, heap_set, remove_pushless_session,
            heap_remove, List.find?_append, hfindn, PAP_PENDING, PAP_EXPIRED,
            PAP_UNDELIVERABLE1, PAP_UNDELIVERABLE2, PAP_DELIVERED1,
            PAP_DELIVERED2, PAP_ABORTED, -List.find?_map, -List.map_map]
        rw [hstate]
        exact IntakeInv_bump2 st _ hinv2
      | tooEarly =>
        have hstate : (handle_push_message st e now).st = { st with sessions := st.sessions ++ [(st.smid_counter, { smid := st.smid_counter, session_id := 0, pi_client_address := e.address_value, push_machines := [{ push_machine_create e st.push_id_counter with message_state := PAP_PENDING }] })], ppg_machines := st.ppg_machines ++ [st.smid_counter], http_clients := st.http_clients.filter (fun k => k ≠ e.pi_push_id), push_id_counter := st.push_id_counter + 1, smid_counter := st.smid_counter + 1 } := by
          simp [handle_push_message, hsm, hcless, htr, hbear, hct, hfz, hfs,
            hfr, find_pi, session_machine_create, store_push_data,
            update_push_data_with_attribute, remove_push_data,
            response_push_message, push_machine_create, update_push_attr,
            modify_session, heap_get, heap_set, remove_pushless_session,
            heap_remove, List.find?_append, hfindn, PAP_PENDING, PAP_EXPIRED,
            PAP_UNDELIVERABLE1, PAP_UNDELIVERABLE2, PAP_DELIVERED1,
            PAP_DELIVERED2, PAP_ABORTED, -List.find?_map, -List.map_map]
        rw [hstate]
        exact IntakeInv_create_append st _ _ e.address_value
          (List.nodup_singleton _)
          (by
            intro x hx
            rw [List.mem_singleton] at hx
            rw [hx]
            exact Nat.lt_succ_self _) hinv2
      | noConstraints =>
        cases hconf : confirmation_requested e with
        | true =>
          have hstate : (handle_push_message st e now).st = { st with sessions := st.sessions ++ [(st.smid_counter, { smid := st.smid_counter, session_id := 0, pi_client_address := e.address_value, push_machines := [{ push_machine_create e st.push_id_counter with message_state := PAP_PENDING }] })], ppg_machines := st.ppg_machines ++ [st.smid_counter], http_clients := st.http_clients.filter (fun k => k ≠ e.pi_push_id), push_id_counter := st.push_id_counter + 1, smid_counter := st.smid_counter + 1 } := by
            simp [handle_push_message, hsm, hcless, htr, hbear, hct, hconf,
              hfz, hfs, hfr, find_pi, session_machine_create,
              store_push_data, update_push_data_with_attribute,
              remove_push_data, response_push_message, push_machine_create,
              update_push_attr, update_session_data_with_headers,
              modify_session, heap_get, heap_set, remove_pushless_session,
              heap_remove, List.find?_append, hfindn, PAP_PENDING,
              PAP_EXPIRED, PAP_UNDELIVERABLE1, PAP_UNDELIVERABLE2,
              PAP_DELIVERED1, PAP_DELIVERED2, PAP_ABORTED,
              -List.find?_map, -List.map_map]
          rw [hstate]
          exact IntakeInv_create_append st _ _ e.address_value
            (List.nodup_singleton _)
            (by
              intro x hx
              rw [List.mem_singleton] at hx
              rw [hx]
              exact Nat.lt_succ_self _) hinv2
        | false =>
          have hstate : (handle_push_message st e now).st = { st with sessions := st.sessions ++ [(st.smid_counter, { smid := st.smid_counter, session_id := 0, pi_client_address := e.address_value, push_machines := [] })], ppg_machines := st.ppg_machines ++ [st.smid_counter], http_clients := st.http_clients.filter (fun k => k ≠ e.pi_push_id), push_id_counter := st.push_id_counter + 1, smid_counter := st.smid_counter + 1 } := by
            simp [handle_push_message, hsm, hcless, htr, hbear, hct, hconf,
              hfz, hfs, hfr, find_pi, session_machine_create,
              store_push_data, update_push_data_with_attribute,
              remove_push_data, response_push_message, push_machine_create,
              update_push_attr, update_session_data_with_headers,
              modify_session, heap_get, heap_set, remove_pushless_session,
              heap_remove, List.find?_append, hfindn, PAP_PENDING,
              PAP_EXPIRED, PAP_UNDELIVERABLE1, PAP_UNDELIVERABLE2,
              PAP_DELIVERED1, PAP_DELIVERED2, PAP_ABORTED,
              -List.find?_map, -List.map_map]
          rw [hstate]
          exact IntakeInv_create_append st _ _ e.address_value
            (List.nodup_nil)
            (by
              intro x hx
              exact absurd hx (List.not_mem_nil x)) hinv2

instance (st : PPGState) : Decidable (IntakeInv st) := by
  unfold IntakeInv pi_unique live_pushes
  infer_instance

theorem http_read_thread_step_IntakeInv (st : PPGState) (e : PushMessage)
    (now : BrokenTime) (h : IntakeInv st) :
    IntakeInv (http_read_thread_step st e now).st := by
  rw [http_read_thread_step]
  by_cases hc : st.http_clients.contains e.pi_push_id
  · rw [if_pos hc]
    exact h
  · rw [if_neg hc]
    have h' : IntakeInv { st with http_clients := st.http_clients ++ [e.pi_push_id] } := h
    cases hsm : session_find { st with http_clients := st.http_clients ++ [e.pi_push_id] } e.address_value with
    | some sid => exact handle_inv_session _ e now sid hsm h'
    | none =>
      cases hcl : cless_accepted e none with
      | true => exact handle_inv_cless _ e now hsm hcl h'
      | false => exact handle_inv_create _ e now hsm hcl h'

theorem initial_state_IntakeInv : IntakeInv initial_state := by decide

theorem run_intake_aux_IntakeInv (evs : List (PushMessage × BrokenTime)) :
    ∀ st : PPGState, IntakeInv st →
      IntakeInv (evs.foldl
        (fun st ev => (http_read_thread_step st ev.1 ev.2).st) st) := by
  induction evs with
  | nil => exact fun st h => h
  | cons ev rest ih =>
    intro st h
    exact ih _ (http_read_thread_step_IntakeInv st ev.1 ev.2 h)

theorem run_intake_IntakeInv (evs : List (PushMessage × BrokenTime)) :
    IntakeInv (run_intake evs) :=
  run_intake_aux_IntakeInv evs initial_state initial_state_IntakeInv

theorem handle_push_message_duplicate_session (st : PPGState)
    (e : PushMessage) (now : BrokenTime) (sid : Nat) (m : SessionMachine)
    (hsm : session_find st e.address_value = some sid)
    (hm : heap_get st sid = some m)
    (hinv : IntakeInv st)
    (hdupE : ∃ x ∈ m.push_machines, x.pi_push_id = e.pi_push_id) :
    handle_push_message st e now = { st := { st with ppg_machines := st.ppg_machines ++ [sid], http_clients := st.http_clients.filter (fun k => k ≠ e.pi_push_id), push_id_counter := st.push_id_counter + 1 }, responses := [(e.pi_push_id, PAP_DUPLICATE_PUSH_ID)], ota := [], attr_updates := [], ok := true } := by
  obtain ⟨hpid, hkey, hnodup, hreg, hsu, huu⟩ := hinv
  have hmem : (sid, m) ∈ st.sessions := heap_get_mem hm
  have hfind0 : st.sessions.find? (fun kv => kv.1 = sid) = some (sid, m) := by
    have h0 := hm
    rw [heap_get, Option.map_eq_some'] at h0
    obtain ⟨kv, hfind, hsnd⟩ := h0
    have hkeyv := List.find?_some hfind
    simp only [decide_eq_true_eq] at hkeyv
    have hkv : kv = (sid, m) := by
      cases kv
      simp_all
    rwa [hkv] at hfind
  have hpids : ∀ x ∈ m.push_machines, x.push_id ≠ st.push_id_counter := by
    intro x hx
    have := hpid x (mem_live_of_session hmem hx)
    omega
  have hfl : List.filter (fun x => !decide (x.push_id = st.push_id_counter))
      m.push_machines = m.push_machines := by
    rw [List.filter_eq_self]
    intro a ha
    simpa using hpids a ha
  have heta : (⟨m.smid, m.session_id, m.pi_client_address, m.push_machines⟩ : SessionMachine) = m := rfl
  have hid : st.sessions.map
      (fun kv => if kv.1 = sid then (sid, m) else kv) = st.sessions :=
    map_key_id st.sessions sid m hnodup hmem
  have hcless : cless_accepted e (some sid) = false := by
    simp [cless_accepted]
  have hcondF : ¬ ∀ a ∈ m.push_machines, a.push_id = st.push_id_counter := by
    intro hall
    obtain ⟨x, hx, _⟩ := hdupE
    exact hpids x hx (hall x hx)
  have hne : ¬ (m.push_machines = []) := by
    obtain ⟨x, hx, _⟩ := hdupE
    intro hnil
    rw [hnil] at hx
    exact absurd hx (List.not_mem_nil x)
  simp [handle_push_message, hsm, hcless, hdupE, hcondF, hne,
    store_push_data, update_push_data_with_attribute, remove_push_data,
    response_push_message, push_machine_create, update_push_attr,
    modify_session, heap_get, heap_set, remove_pushless_session,
    heap_remove, find_key_map_keep, hfind0, map_key_swap_chain, hfl,
    heta, hid, find_pi, PAP_PENDING, PAP_EXPIRED, PAP_UNDELIVERABLE1,
    PAP_UNDELIVERABLE2, PAP_DELIVERED1, PAP_DELIVERED2, PAP_ABORTED,
    -List.find?_map, -List.map_map]

theorem handle_push_message_duplicate_cless (st : PPGState)
    (e : PushMessage) (now : BrokenTime)
    (hsm : session_find st e.address_value = none)
    (hdm : cless_accepted e none = true)
    (hinv : IntakeInv st)
    (hdupE : ∃ x ∈ st.ppg_unit_pushes, x.pi_push_id = e.pi_push_id) :
    handle_push_message st e now = { st := { st with http_clients := st.http_clients.filter (fun k => k ≠ e.pi_push_id), push_id_counter := st.push_id_counter + 1 }, responses := [(e.pi_push_id, PAP_DUPLICATE_PUSH_ID)], ota := [], attr_updates := [], ok := true } := by
  obtain ⟨hpid, hkey, hnodup, hreg, hsu, huu⟩ := hinv
  have hfl : List.filter (fun x => !decide (x.push_id = st.push_id_counter))
      st.ppg_unit_pushes = st.ppg_unit_pushes := by
    rw [List.filter_eq_self]
    intro a ha
    have := hpid a (mem_live_of_unit ha)
    simp
    omega
  simp [handle_push_message, hsm, hdm, hdupE, store_push_data,
    update_push_data_with_attribute, remove_push_data,
    response_push_message, push_machine_create, update_push_attr,
    remove_pushless_session, hfl, find_pi,
    -List.find?_map, -List.map_map]

def c1_pm : PushMachine := push_machine_create e_A 0

def c1_session : SessionMachine :=
  { smid := 0, session_id := 0, pi_client_address := str (r"A"),
    push_machines := [c1_pm] }

def c1_stdup : PPGState :=
  { sessions := [(0, c1_session)], ppg_machines := [0],
    ppg_unit_pushes := [], http_clients := [], push_id_counter := 1,
    smid_counter := 1 }

/-- C1, amended: `pi_push_id` is unique within each session machine's
push list and within the connectionless list, for every intake run from
the initial state (global uniqueness across lists does not hold, see the
counterexample); a push whose `pi_push_id` is still in the `http_clients`
dictionary is answered `PAP_DUPLICATE_PUSH_ID` with the state untouched,
and a push whose `pi_push_id` is already present in the very list it
would be stored into (its session's list, or the connectionless list) is
answered `PAP_DUPLICATE_PUSH_ID`, dispatches no OTA event and leaves the
set of live push machines unchanged. -/
theorem intake_pi_per_list_unique :
    (∀ evs : List (PushMessage × BrokenTime),
      (∀ kv ∈ (run_intake evs).sessions, pi_unique kv.2.push_machines) ∧
      pi_unique (run_intake evs).ppg_unit_pushes) ∧
    (∀ (st : PPGState) (e : PushMessage) (now : BrokenTime),
      st.http_clients.contains e.pi_push_id = true →
      (http_read_thread_step st e now).responses =
        [(e.pi_push_id, PAP_DUPLICATE_PUSH_ID)] ∧
      (http_read_thread_step st e now).st = st) ∧
    (∀ (st : PPGState) (e : PushMessage) (now : BrokenTime)
        (sid : Nat) (m : SessionMachine),
      IntakeInv st →
      st.http_clients.contains e.pi_push_id = false →
      session_find st e.address_value = some sid →
      heap_get st sid = some m →
      (∃ x ∈ m.push_machines, x.pi_push_id = e.pi_push_id) →
      (http_read_thread_step st e now).responses =
        [(e.pi_push_id, PAP_DUPLICATE_PUSH_ID)] ∧
      (http_read_thread_step st e now).ota = [] ∧
      live_pushes (http_read_thread_step st e now).st = live_pushes st) ∧
    (∀ (st : PPGState) (e : PushMessage) (now : BrokenTime),
      IntakeInv st →
      st.http_clients.contains e.pi_push_id = false →
      session_find st e.address_value = none →
      cless_accepted e none = true →
      (∃ x ∈ st.ppg_unit_pushes, x.pi_push_id = e.pi_push_id) →
      (http_read_thread_step st e now).responses =
        [(e.pi_push_id, PAP_DUPLICATE_PUSH_ID)] ∧
      (http_read_thread_step st e now).ota = [] ∧
      live_pushes (http_read_thread_step st e now).st = live_pushes st) := by
  refine ⟨?_, ?_, ?_, ?_⟩
  · intro evs
    have h := run_intake_IntakeInv evs
    exact ⟨h.2.2.2.2.1, h.2.2.2.2.2⟩
  · intro st e now hc
    rw [http_read_thread_step, if_pos hc]
    exact ⟨rfl, rfl⟩
  · intro st e now sid m hinv hc hsm hm hdup
    have hnc : ¬ (st.http_clients.contains e.pi_push_id = true) := by
      rw [hc]
      exact Bool.false_ne_true
    rw [http_read_thread_step, if_neg hnc]
    have hsm' : session_find { st with http_clients := st.http_clients ++ [e.pi_push_id] } e.address_value = some sid := hsm
    have hm' : heap_get { st with http_clients := st.http_clients ++ [e.pi_push_id] } sid = some m := hm
    have hinv' : IntakeInv { st with http_clients := st.http_clients ++ [e.pi_push_id] } := hinv
    rw [handle_push_message_duplicate_session _ e now sid m hsm' hm' hinv' hdup]
    exact ⟨rfl, rfl, rfl⟩
  · intro st e now hinv hc hsm hdm hdup
    have hnc : ¬ (st.http_clients.contains e.pi_push_id = true) := by
      rw [hc]
      exact Bool.false_ne_true
    rw [http_read_thread_step, if_neg hnc]
    have hsm' : session_find { st with http_clients := st.http_clients ++ [e.pi_push_id] } e.address_value = none := hsm
    have hinv' : IntakeInv { st with http_clients := st.http_clients ++ [e.pi_push_id] } := hinv
    have hdup' : ∃ x ∈ ({ st with http_clients := st.http_clients ++ [e.pi_push_id] } : PPGState).ppg_unit_pushes, x.pi_push_id = e.pi_push_id := hdup
    rw [handle_push_message_duplicate_cless _ e now hsm' hdm hinv' hdup']
    exact ⟨rfl, rfl, rfl⟩

theorem intake_pi_per_list_unique_witness :
    ((∀ kv ∈ (run_intake [(e_A, c5_now), (e_B, c5_now)]).sessions,
        pi_unique kv.2.push_machines) ∧
      pi_unique (run_intake [(e_A, c5_now), (e_B, c5_now)]).ppg_unit_pushes) ∧
    IntakeInv c1_stdup ∧
    (http_read_thread_step c1_stdup e_A c5_now).responses =
      [(e_A.pi_push_id, PAP_DUPLICATE_PUSH_ID)] ∧
    live_pushes (http_read_thread_step c1_stdup e_A c5_now).st =
      live_pushes c1_stdup :=
  ⟨intake_pi_per_list_unique.1 [(e_A, c5_now), (e_B, c5_now)],
   by decide,
   (intake_pi_per_list_unique.2.2.1 c1_stdup e_A c5_now 0 c1_session
     (by decide) (by decide) (by decide) rfl (by decide)).1,
   (intake_pi_per_list_unique.2.2.1 c1_stdup e_A c5_now 0 c1_session
     (by decide) (by decide) (by decide) rfl (by decide)).2.2⟩

end KannelPush